import Mathlib

/-!
# Ship tracker: the active-ships query, the transformation layer and the client

A shallow embedding of `backend/server.js` (`generateLocationName`,
`transformShipData` and the handler of `GET /api/ships/active`) with the two collection
schemas of `backend/models`, of `frontend/src/services/apiService.js` (`handleResponse`,
`fetchActiveShips`, `getConnectionStatus`) and of the filter, sort and `handleSort` code
of `frontend/src/components/CurrentViolations.jsx` and `ShipsListPage.jsx`.

Modelling conventions.

* A JavaScript number is an exact rational (`ℚ`); a decimal literal such as `1.6`
  denotes its decimal value.  `NaN`, the infinities and the exponent notation that
  `toFixed` switches to from `10^21` upwards lie outside the model.
* An optional document field is an `Option`; `none` stands for a field that is
  missing (or `null`).
* The vessel identifier `UserID` is an integer, as in the data model.
* `received_timestamp` is a stored date, kept as milliseconds since the epoch; so is
  the clock value `now` that `new Date()` reads.
* The documents of a collection are a list, in the order a collection scan yields
  them.
* The regular-expression library behind `$regex` is a parameter of the query; every
  result holds for each such library.
* The store rejects a `$skip` that is not a non-negative 64-bit integer and a `$limit`
  that is not a positive one; the handler answers a rejected aggregation with its
  `500` body.
* The clock is read once per request.
* A function that can throw returns an `Except`; the thrown value is an `ApiError` or an
  error of the platform, of which the name and the message are kept.
* The network is the argument of `fetchActiveShips`: what `fetch` settles with.
* A record on the client has the members `transformShipData` gave it; its `timeDetected`
  is either a `Date` or the ISO string the JSON text of the response carries.
* `String.prototype.toLowerCase` is a parameter of the client code; strings compare by
  their UTF-16 code units.
* `Array.prototype.sort` is stable; it is an insertion sort by the comparator.
-/

namespace ShipTracker

/-! ## JavaScript primitives -/

/-- Truthiness of an optional number: a missing field and `0` are falsy. -/
def truthyNum : Option ℚ → Bool
  | some x => x != 0
  | none => false

/-- The expression `a || b` on two optional numbers. -/
def orElseNum (a b : Option ℚ) : Option ℚ :=
  if truthyNum a then a else b

/-- The expression `a || d` where `d` is a number literal. -/
def orNum (a : Option ℚ) (d : ℚ) : ℚ :=
  match a with
  | some x => if x != 0 then x else d
  | none => d

/-- The expression `a || d` where `d` is a string literal. -/
def orStr (a : Option String) (d : String) : String :=
  match a with
  | some s => if s != "" then s else d
  | none => d

/-- The method `Number.prototype.toString` on an integer: its decimal digits, with a
leading minus sign when negative. -/
def numberToString (n : Int) : String :=
  if n < 0 then "-" ++ Nat.repr n.natAbs else Nat.repr n.natAbs

/-- The function `Math.abs`. -/
def Math.abs (x : ℚ) : ℚ :=
  if x < 0 then -x else x

/-- The method `Number.prototype.toFixed`: with `n` the integer nearest to
`|x| * 10^f` (the larger one on a tie), the digits of `n` with a decimal point before
the last `f` of them, left-padded with zeros to at least `f + 1` digits, and a minus
sign in front when `x < 0`. -/
def toFixed (x : ℚ) (f : Nat) : String :=
  let n : Nat := (2 * x.num.natAbs * 10 ^ f + x.den) / (2 * x.den)
  let ds : List Char := (Nat.repr n).data
  let padded : List Char := List.replicate (f + 1 - ds.length) '0' ++ ds
  let intPart : String := String.mk (padded.take (padded.length - f))
  let body : String :=
    if f = 0 then intPart else intPart ++ "." ++ String.mk (padded.drop (padded.length - f))
  if x < 0 then "-" ++ body else body

/-! ## Data model (`models/shipSchema.js`, `models/positionSchema.js`) -/

/-- A document of the `static-ships` collection: the fields the query reads. -/
structure Ship where
  UserID : Option Int := none
  Name : Option String := none
  CallSign : Option String := none
  Destination : Option String := none
  deriving DecidableEq, Repr

/-- A document of the `position-reports` collection.  `Timestamp` is the schema field
of the report itself; `received_timestamp` is the field the query sorts by. -/
structure PositionReport where
  UserID : Option Int := none
  Sog : Option ℚ := none
  Longitude : Option ℚ := none
  Latitude : Option ℚ := none
  Cog : Option ℚ := none
  TrueHeading : Option ℚ := none
  Timestamp : Option ℚ := none
  received_timestamp : Option Int := none
  deriving DecidableEq, Repr

/-- The `location` object of a view record. -/
structure Location where
  lat : ℚ
  lng : ℚ
  name : String
  deriving DecidableEq, Repr

/-- The `violation` object of a view record. -/
structure Violation where
  type : String
  label : String
  severity : String
  deriving DecidableEq, Repr

/-- The record `transformShipData` builds for the frontend. -/
structure ViewRecord where
  id : String
  name : String
  location : Location
  direction : ℚ
  violation : Violation
  timeDetected : Int
  speed : ℚ
  course : ℚ
  deriving DecidableEq, Repr

/-! ## Transformation layer (`server.js`, lines 30-64) -/

/-- The helper `generateLocationName`.  The two characters in front of the hemisphere
letter are the ones the source file holds. -/
def generateLocationName (lat lng : ℚ) : String :=
  if lat ≥ 1.0 ∧ lat ≤ 1.6 ∧ lng ≥ 103.0 ∧ lng ≤ 104.5 then
    "Singapore Waters"
  else if lat ≥ 24.0 ∧ lat ≤ 46.0 ∧ lng ≥ 122.0 ∧ lng ≤ 146.0 then
    "Japanese Waters"
  else
    toFixed lat 4 ++ "Â°" ++ (if lat ≥ 0 then "N" else "S") ++ ", " ++
      toFixed (Math.abs lng) 4 ++ "Â°" ++ (if lng ≥ 0 then "E" else "W")

/-- The helper `transformShipData`; `now` is the value `new Date()` reads. -/
def transformShipData (ship : Ship) (position : PositionReport) (now : Int) : ViewRecord :=
  let timeDetected : Int :=
    match position.received_timestamp with
    | some t => t
    | none => now
  { id := orStr (ship.UserID.map numberToString) "unknown"
    name := orStr ship.Name "Unknown Vessel"
    location :=
      { lat := orNum position.Latitude 0
        lng := orNum position.Longitude 0
        name := generateLocationName (orNum position.Latitude 0) (orNum position.Longitude 0) }
    direction := orNum (orElseNum position.TrueHeading position.Cog) 0
    violation := { type := "monitoring", label := "Monitoring", severity := "info" }
    timeDetected := timeDetected
    speed := orNum position.Sog 0
    course := orNum position.Cog 0 }

/-- The helper `formatCoordinates` of `frontend/src/components/ShipTable.jsx`, the
client-side sibling of the coordinate branch of `generateLocationName`. -/
def formatCoordinates (lat lng : ℚ) : String :=
  let latDir := if lat ≥ 0 then "N" else "S"
  let lngDir := if lng ≥ 0 then "E" else "W"
  toFixed (Math.abs lat) 4 ++ "°" ++ latDir ++ ", " ++ toFixed (Math.abs lng) 4 ++ "°" ++ lngDir

/-- The constructor call `new Date(x)` on a number: the milliseconds are `x` truncated
towards zero. -/
def dateOfNumber (x : ℚ) : Int :=
  x.num.tdiv x.den

/-- The rule the specification words for `timeDetected`: the reception time of the report
itself (schema field `Timestamp`), else the received timestamp the store holds for it
(`received_timestamp`), else the current time. -/
def timeDetectedSpec (position : PositionReport) (now : Int) : Int :=
  match position.Timestamp with
  | some t => dateOfNumber t
  | none =>
    match position.received_timestamp with
    | some r => r
    | none => now

/-! ## Request parameters -/

/-- The white space `parseInt` skips in front of its argument. -/
def isStrWhiteSpaceChar (c : Char) : Bool :=
  c.toNat = 0x20 || c.toNat = 0x09 || c.toNat = 0x0A || c.toNat = 0x0D || c.toNat = 0x0B ||
    c.toNat = 0x0C || c.toNat = 0xA0 || c.toNat = 0xFEFF || c.toNat = 0x1680 ||
    (0x2000 ≤ c.toNat && c.toNat ≤ 0x200A) || c.toNat = 0x2028 || c.toNat = 0x2029 ||
    c.toNat = 0x202F || c.toNat = 0x205F || c.toNat = 0x3000

/-- The value of a character as a digit of a radix up to 36. -/
def digitValue (c : Char) : Option Nat :=
  if 48 ≤ c.toNat ∧ c.toNat ≤ 57 then some (c.toNat - 48)
  else if 97 ≤ c.toNat ∧ c.toNat ≤ 122 then some (c.toNat - 87)
  else if 65 ≤ c.toNat ∧ c.toNat ≤ 90 then some (c.toNat - 55)
  else none

/-- Whether a character is a digit of radix `R`. -/
def isRadixDigit (R : Nat) (c : Char) : Bool :=
  match digitValue c with
  | some d => d < R
  | none => false

/-- The global function `parseInt` without a radix argument, on a string: leading white
space is skipped, a sign is read, a `0x` or `0X` start selects radix 16, and the longest
run of digits is the value; `none` is `NaN`, returned when there is no digit. -/
def parseInt (input : String) : Option Int :=
  let s := input.data.dropWhile isStrWhiteSpaceChar
  let sign : Int :=
    match s with
    | '-' :: _ => -1
    | _ => 1
  let s :=
    match s with
    | '-' :: r => r
    | '+' :: r => r
    | _ => s
  let rs : Nat × List Char :=
    match s with
    | '0' :: 'x' :: r => (16, r)
    | '0' :: 'X' :: r => (16, r)
    | _ => (10, s)
  let z := rs.2.takeWhile (isRadixDigit rs.1)
  if z = [] then none
  else some (sign * Int.ofNat (z.foldl (fun acc c => acc * rs.1 + (digitValue c).getD 0) 0))

/-- The object `req.query`: each parameter is a string when the request carries it. -/
structure Query where
  limit : Option String := none
  offset : Option String := none
  search : Option String := none
  deriving DecidableEq, Repr

/-- The call `parseInt(v)` on a destructured parameter whose default is the number `d`. -/
def parseParam (v : Option String) (d : Int) : Option Int :=
  match v with
  | some s => parseInt s
  | none => some d

/-! ## The store and its aggregation stages -/

/-- The two collections the query reads. -/
structure Store where
  ships : List Ship
  positions : List PositionReport
  deriving DecidableEq, Repr

/-- A document travelling through the pipeline: the ship, the `positions` array that
`$lookup` adds and the `latestPosition` that `$addFields` adds. -/
structure JoinedShip where
  ship : Ship
  positions : List PositionReport
  latestPosition : Option PositionReport := none
  deriving DecidableEq, Repr

/-- The regular-expression library of the store, taken as a parameter: a pattern either
fails to compile (`none`) or yields its case-insensitive matcher. -/
abbrev RegexEngine := String → Option (String → Bool)

/-- The sort order of the store on `received_timestamp` values: a missing field sorts
below every date. -/
def bsonLe : Option Int → Option Int → Bool
  | none, _ => true
  | some _, none => false
  | some a, some b => a ≤ b

/-- Stage `$lookup`: each ship receives the reports whose `UserID` equals its own (a
missing `UserID` on either side compares as `null`). -/
def lookup (positions : List PositionReport) (ships : List Ship) : List JoinedShip :=
  ships.map fun s =>
    { ship := s, positions := positions.filter (fun p => p.UserID = s.UserID) }

/-- Stage `$match` on `positions.0` existing. -/
def matchHasPositions (docs : List JoinedShip) : List JoinedShip :=
  docs.filter fun d => d.positions ≠ []

/-- Operator `$sortArray` with `sortBy: received_timestamp: -1`, as a stable sort. -/
def sortArray (ps : List PositionReport) : List PositionReport :=
  ps.insertionSort fun a b => bsonLe b.received_timestamp a.received_timestamp = true

/-- Stage `$addFields`: `latestPosition` is element `0` of the sorted `positions`. -/
def addLatestPosition (docs : List JoinedShip) : List JoinedShip :=
  docs.map fun d => { d with latestPosition := (sortArray d.positions).head? }

/-- One `$regex` clause: a missing field does not match. -/
def fieldMatches (m : String → Bool) : Option String → Bool
  | some v => m v
  | none => false

/-- The `$or` of the three `$regex` clauses. -/
def searchMatches (m : String → Bool) (d : JoinedShip) : Bool :=
  fieldMatches m d.ship.Name || fieldMatches m d.ship.CallSign ||
    fieldMatches m d.ship.Destination

/-- The optional search `$match`: absent for an empty term; a pattern that does not
compile makes the aggregation fail. -/
def searchStage (re : RegexEngine) (search : String) (docs : List JoinedShip) :
    Except String (List JoinedShip) :=
  if search = "" then .ok docs
  else
    match re search with
    | some m => .ok (docs.filter (searchMatches m))
    | none => .error "invalid regular expression"

/-- Stage `$skip`: the store accepts a non-negative 64-bit integer. -/
def skipStage (n : Option Int) (docs : List JoinedShip) : Except String (List JoinedShip) :=
  match n with
  | some k => if 0 ≤ k ∧ k ≤ 2 ^ 63 - 1 then .ok (docs.drop k.toNat) else .error "invalid $skip"
  | none => .error "invalid $skip"

/-- Stage `$limit`: the store accepts a positive 64-bit integer. -/
def limitStage (n : Option Int) (docs : List JoinedShip) : Except String (List JoinedShip) :=
  match n with
  | some k => if 1 ≤ k ∧ k ≤ 2 ^ 63 - 1 then .ok (docs.take k.toNat) else .error "invalid $limit"
  | none => .error "invalid $limit"

/-- Stage `$count`: no document at all when the input is empty. -/
def countStage (docs : List JoinedShip) : List Nat :=
  if docs = [] then [] else [docs.length]

/-! ## The handler of `GET /api/ships/active` (`server.js`, lines 67-178) -/

/-- The array `pipeline` run by `StaticShips.aggregate`. -/
def pipeline (re : RegexEngine) (store : Store) (search : String) (offset limit : Option Int) :
    Except String (List JoinedShip) := do
  let joined := addLatestPosition (matchHasPositions (lookup store.positions store.ships))
  let found ← searchStage re search joined
  let skipped ← skipStage offset found
  limitStage limit skipped

/-- The array `totalPipeline` run by `StaticShips.aggregate`. -/
def totalPipeline (re : RegexEngine) (store : Store) (search : String) :
    Except String (List Nat) := do
  let joined := matchHasPositions (lookup store.positions store.ships)
  let found ← searchStage re search joined
  pure (countStage found)

/-- The test of the `.filter` call that precedes the transformation. -/
def hasCoordinates (d : JoinedShip) : Bool :=
  match d.latestPosition with
  | some p => truthyNum p.Latitude && truthyNum p.Longitude
  | none => false

/-- The array `transformedShips`. -/
def transformedShips (ships : List JoinedShip) (now : Int) : List ViewRecord :=
  (ships.filter hasCoordinates).filterMap fun d =>
    d.latestPosition.map fun p => transformShipData d.ship p now

/-- The `pagination` object of the response. -/
structure Pagination where
  total : Nat
  limit : Int
  offset : Int
  hasMore : Bool
  deriving DecidableEq, Repr

/-- The body of a `200` response. -/
structure Response where
  success : Bool
  data : List ViewRecord
  pagination : Pagination
  timestamp : Int
  deriving DecidableEq, Repr

/-- The body of the `500` response of the `catch` block. -/
structure ErrorResponse where
  success : Bool
  error : String
  message : String
  details : String
  timestamp : Int
  deriving DecidableEq, Repr

/-- The handler: the response it sends for a store state, a request and a clock value.
A failing aggregation is caught and answered with `FETCH_SHIPS_ERROR`.  The pagination
object is built only after the aggregation has accepted the parsed limit and offset, so
neither is `NaN` where `getD` reads it. -/
def activeShips (re : RegexEngine) (store : Store) (query : Query) (now : Int) :
    Except ErrorResponse Response :=
  let limit := parseParam query.limit 50
  let offset := parseParam query.offset 0
  let search := query.search.getD ""
  let run : Except String Response := do
    let ships ← pipeline re store search offset limit
    let data := transformedShips ships now
    let totalResult ← totalPipeline re store search
    let total := totalResult.headD 0
    pure
      { success := true
        data := data
        pagination :=
          { total := total
            limit := limit.getD 0
            offset := offset.getD 0
            hasMore := offset.getD 0 + data.length < total }
        timestamp := now }
  match run with
  | .ok r => .ok r
  | .error details =>
      .error
        { success := false
          error := "FETCH_SHIPS_ERROR"
          message := "Failed to fetch ship data"
          details := details
          timestamp := now }

/-- The number a list of decimal digit characters denotes. -/
def digitsValue (cs : List Char) : Nat :=
  cs.foldl (fun acc c => acc * 10 + (c.toNat - 48)) 0

/-! ## A sample store

Ship A has no report, ship B has reports received at 1 and at 5, ship C has one report
received at 3. -/

/-- A regular-expression library that compiles no pattern: enough for requests without a
search term. -/
def exampleEngine : RegexEngine := fun _ => none

/-- Ship A of the sample store. -/
def shipA : Ship := { UserID := some 1, Name := some "A" }

/-- Ship B of the sample store. -/
def shipB : Ship := { UserID := some 2, Name := some "B" }

/-- Ship C of the sample store. -/
def shipC : Ship := { UserID := some 3, Name := some "C" }

/-- The report of ship B received at 1. -/
def reportB1 : PositionReport :=
  { UserID := some 2, Latitude := some 10, Longitude := some 150, received_timestamp := some 1 }

/-- The report of ship B received at 5. -/
def reportB5 : PositionReport :=
  { UserID := some 2, Latitude := some 11, Longitude := some 151, received_timestamp := some 5 }

/-- The report of ship C received at 3. -/
def reportC3 : PositionReport :=
  { UserID := some 3, Latitude := some 35, Longitude := some 135, received_timestamp := some 3 }

/-- The sample store. -/
def exampleStore : Store :=
  { ships := [shipA, shipB, shipC], positions := [reportB1, reportB5, reportC3] }

/-- The response to the default request on the sample store at clock value 0. -/
def exampleResponse : Response :=
  { success := true
    data := [transformShipData shipB reportB5 0, transformShipData shipC reportC3 0]
    pagination := { total := 2, limit := 50, offset := 0, hasMore := false }
    timestamp := 0 }

/-- The response to the request with offset 2 on the sample store at clock value 0. -/
def examplePastEnd : Response :=
  { success := true
    data := []
    pagination := { total := 2, limit := 50, offset := 2, hasMore := false }
    timestamp := 0 }

/-! ## The API client (`frontend/src/services/apiService.js`) -/

/-- A value `response.json()` can resolve with. -/
inductive Json where
  | null
  | bool (b : Bool)
  | num (x : ℚ)
  | str (s : String)
  | arr (items : List Json)
  | obj (fields : List (String × Json))

/-- Truthiness of the result of a property read; `none` is `undefined`. -/
def Json.truthy : Option Json → Bool
  | some (.bool b) => b
  | some (.num x) => x != 0
  | some (.str s) => s != ""
  | some (.arr _) => true
  | some (.obj _) => true
  | some .null => false
  | none => false

/-- The property reads `errorData.message` and `errorData.error` on a value other than
`null`: an object yields the member of that name (the last one when the text repeated
it), every other value yields `undefined`. -/
def Json.get (v : Json) (key : String) : Option Json :=
  match v with
  | .obj fields => (fields.reverse.find? (fun f => f.1 = key)).map (fun f => f.2)
  | _ => none

/-- The expression `a || d` on the result of a property read. -/
def Json.orElse (a : Option Json) (d : Json) : Json :=
  match a with
  | some v => if Json.truthy (some v) then v else d
  | none => d

/-- The comparison `v === s` of a value with a string literal; `none` is `undefined`. -/
def Json.isStr (v : Option Json) (s : String) : Bool :=
  match v with
  | some (.str t) => t = s
  | _ => false

/-- The class `ApiError`; `message` is the value handed to the constructor. -/
structure ApiError where
  message : Json
  status : Int
  code : Json

/-- A value a `catch` block receives: an `ApiError`, or an error of the platform with its
`name` and `message`. -/
inductive Thrown where
  | apiError (e : ApiError)
  | native (name : String) (message : String)

/-- The property `error.name`. -/
def Thrown.name : Thrown → String
  | .apiError _ => "ApiError"
  | .native n _ => n

/-- The property `error.code`; `none` is `undefined`. -/
def Thrown.code : Thrown → Option Json
  | .apiError e => some e.code
  | .native _ _ => none

/-- The property `error.status`; `none` is `undefined`. -/
def Thrown.status : Thrown → Option Int
  | .apiError e => some e.status
  | .native _ _ => none

/-- A response of `fetch`: its status and what `response.json()` settles with. -/
structure HttpResponse where
  status : Int
  json : Except Thrown Json

/-- The property `response.ok`: the status lies in 200..299. -/
def HttpResponse.ok (response : HttpResponse) : Bool :=
  200 ≤ response.status && response.status ≤ 299

/-- The `TypeError` of a property read on `null`, with the text V8 gives it. -/
def nullReadError : Thrown :=
  .native "TypeError" "Cannot read properties of null (reading \x27message\x27)"

/-- The helper `handleResponse`. -/
def handleResponse (response : HttpResponse) : Except Thrown Json :=
  if !response.ok then
    let errorData : Json :=
      match response.json with
      | .ok v => v
      | .error _ => .obj [("message", .str "Network error occurred")]
    match errorData with
    | .null => .error nullReadError
    | _ =>
      .error (.apiError
        { message := Json.orElse (errorData.get "message")
            (.str ("HTTP error! status: " ++ numberToString response.status))
          status := response.status
          code := Json.orElse (errorData.get "error") (.str "UNKNOWN_ERROR") })
  else
    response.json

/-- The method `String.prototype.includes`. -/
def includes (s part : String) : Bool :=
  decide (List.IsInfix part.data s.data)

/-- The method `ApiService.fetchActiveShips` once the request is built: `fetched` is what
`fetch` settles with, a response or a rejection. -/
def fetchActiveShips (fetched : Except Thrown HttpResponse) : Except Thrown Json :=
  match fetched >>= handleResponse with
  | .ok body => .ok body
  | .error error =>
    if error.name = "TimeoutError" then
      .error (.apiError
        { message := .str "Request timed out", status := 408, code := .str "TIMEOUT_ERROR" })
    else if error.name = "TypeError" ∧
        (match error with
          | .native _ message => includes message "fetch"
          | .apiError _ => false) = true then
      .error (.apiError
        { message := .str "Unable to connect to server", status := 0,
          code := .str "CONNECTION_ERROR" })
    else
      .error error

/-- The helper `getConnectionStatus`; `none` is a falsy argument (no error). -/
def getConnectionStatus (error : Option Thrown) : String :=
  match error with
  | none => "connected"
  | some e =>
    if Json.isStr e.code "CONNECTION_ERROR" ∨ e.status = some 0 then "disconnected"
    else if Json.isStr e.code "TIMEOUT_ERROR" ∨ e.status = some 408 then "timeout"
    else if (match e.status with
        | some s => decide (s ≥ 500)
        | none => false) = true then "server_error"
    else "error"

/-! ## A regular-expression library for a fragment of the patterns -/

/-- The characters with a special meaning in a pattern:
backslash, caret, dollar, dot, bar, question mark, star, plus, the brackets and braces. -/
def isPatternMeta (c : Char) : Bool :=
  [92, 94, 36, 46, 124, 63, 42, 43, 40, 41, 91, 93, 123, 125].contains c.toNat

/-- Whether a pattern of ordinary characters and dots matches at the start of a text:
a dot stands for any character but the line feed, an ordinary character for itself in
either letter case. -/
def fragmentMatchesHere : List Char → List Char → Bool
  | [], _ => true
  | _ :: _, [] => false
  | p :: ps, c :: cs =>
    (if p = '.' then c.toNat != 10 else p.toLower = c.toLower) && fragmentMatchesHere ps cs

/-- Whether such a pattern matches somewhere in a text. -/
def fragmentSearch (p : List Char) : List Char → Bool
  | [] => fragmentMatchesHere p []
  | c :: cs => fragmentMatchesHere p (c :: cs) || fragmentSearch p cs

/-- A library that compiles the patterns made of ordinary characters and dots, and no
other pattern. -/
def fragmentEngine : RegexEngine := fun pattern =>
  if pattern.data.any (fun c => isPatternMeta c && c != '.') then none
  else some fun text => fragmentSearch pattern.data text.data

/-- A store with ship B and its latest report only. -/
def searchStore : Store :=
  { ships := [shipB], positions := [reportB5] }

/-- The response that holds the record of ship B alone, at clock value 0. -/
def searchResponse : Response :=
  { success := true
    data := [transformShipData shipB reportB5 0]
    pagination := { total := 1, limit := 50, offset := 0, hasMore := false }
    timestamp := 0 }

/-- The `500` body of the handler at clock value 0. -/
def exampleFailure (details : String) : ErrorResponse :=
  { success := false
    error := "FETCH_SHIPS_ERROR"
    message := "Failed to fetch ship data"
    details := details
    timestamp := 0 }

/-! ## Groups of a sorted list -/

/-- Worker of `reverseGroups`; `fuel` bounds the number of groups. -/
def reverseGroupsAux {α κ : Type} [DecidableEq κ] (f : α → κ) : Nat → List α → List α
  | 0, _ => []
  | _ + 1, [] => []
  | fuel + 1, a :: l =>
    reverseGroupsAux f fuel (l.dropWhile fun b => f b = f a) ++
      a :: l.takeWhile fun b => f b = f a

/-- The list with the order of its groups reversed and the order inside each group
unchanged; a group is a maximal run of neighbours with the same value of `f`. -/
def reverseGroups {α κ : Type} [DecidableEq κ] (f : α → κ) (l : List α) : List α :=
  reverseGroupsAux f l.length l

/-! ## The view records on the client

The components hold what `response.json()` made of the body the handler sent with
`res.json`: every member of a view record arrives as it was built, except `timeDetected`,
a `Date` on the server and its ISO string on the client. -/

/-- The `timeDetected` member of a record a component holds: a `Date`, or the ISO string
of one; `ms` is the instant, in milliseconds since the epoch. -/
inductive TimeField where
  | date (ms : Int)
  | iso (ms : Int)
  deriving DecidableEq, Repr

/-- The instant of a `timeDetected` member: the value of `new Date(v).getTime()`. -/
def TimeField.ms : TimeField → Int
  | .date ms => ms
  | .iso ms => ms

/-- A view record as a component holds it. -/
structure ClientRecord where
  id : String
  name : String
  location : Location
  direction : ℚ
  violation : Violation
  timeDetected : TimeField
  speed : ℚ
  course : ℚ
  deriving DecidableEq, Repr

/-- What the JSON text of the response makes of a view record. -/
def overTheWire (r : ViewRecord) : ClientRecord :=
  { id := r.id
    name := r.name
    location := r.location
    direction := r.direction
    violation := r.violation
    timeDetected := .iso r.timeDetected
    speed := r.speed
    course := r.course }

/-- A view record on the client had its `Date` crossed the wire as a `Date`. -/
def withDate (r : ViewRecord) : ClientRecord :=
  { overTheWire r with timeDetected := .date r.timeDetected }

/-- The array `response.data` that `fetchShipsFromAPI` returns for a `200` response. -/
def snapshotOf (resp : Response) : List ClientRecord :=
  resp.data.map overTheWire

/-- The UTF-16 code units of a character. -/
def utf16 (c : Char) : List Nat :=
  if c.toNat < 0x10000 then [c.toNat]
  else [0xD800 + (c.toNat - 0x10000) / 0x400, 0xDC00 + (c.toNat - 0x10000) % 0x400]

/-- The code units of a string, by which `<` and `>` compare strings. -/
def codeUnits (s : String) : List Nat :=
  s.data.flatMap utf16

/-! ## The filter and sort effect of `CurrentViolations.jsx` (lines 109-169) -/

/-- The state `filters`. -/
structure Filters where
  violationType : List String
  location : String
  timeRange : String
  severity : String
  deriving DecidableEq, Repr

/-- The state `sortConfig`. -/
structure SortConfig where
  key : String
  direction : String
  deriving DecidableEq, Repr

/-- The initial `filters` of `CurrentViolations`. -/
def initialFilters : Filters :=
  { violationType := [], location := "", timeRange := "30d", severity := "all" }

/-- The initial `sortConfig` of `CurrentViolations`. -/
def initialSortConfig : SortConfig :=
  { key := "timeDetected", direction := "desc" }

/-- The own members of the object `timeRanges`. -/
def timeRanges (key : String) : Option Int :=
  if key = "1h" then some (1 * 60 * 60 * 1000)
  else if key = "24h" then some (24 * 60 * 60 * 1000)
  else if key = "7d" then some (7 * 24 * 60 * 60 * 1000)
  else if key = "30d" then some (30 * 24 * 60 * 60 * 1000)
  else none

/-- The members every object literal inherits; a read of one of them off `timeRanges`
yields a truthy value that is no number. -/
def inheritedMembers : List String :=
  ["constructor", "hasOwnProperty", "isPrototypeOf", "propertyIsEnumerable", "toLocaleString",
    "toString", "valueOf", "__proto__", "__defineGetter__", "__defineSetter__",
    "__lookupGetter__", "__lookupSetter__"]

/-- The test `now - ship.timeDetected <= window`: the difference is `NaN`, and the test
false, when `timeDetected` is a string. -/
def withinWindow (now window : Int) (t : TimeField) : Bool :=
  match t with
  | .date ms => now - ms ≤ window
  | .iso _ => false

/-- The search stage. -/
def applySearch (toLowerCase : String → String) (searchTerm : String)
    (filtered : List ClientRecord) : List ClientRecord :=
  if searchTerm ≠ "" then
    filtered.filter fun ship =>
      includes (toLowerCase ship.name) (toLowerCase searchTerm) ||
        includes (toLowerCase ship.location.name) (toLowerCase searchTerm)
  else filtered

/-- The violation-type stage. -/
def applyViolationType (violationType : List String) (filtered : List ClientRecord) :
    List ClientRecord :=
  if violationType.length > 0 then
    filtered.filter fun ship => violationType.contains ship.violation.type
  else filtered

/-- The location stage. -/
def applyLocation (toLowerCase : String → String) (location : String)
    (filtered : List ClientRecord) : List ClientRecord :=
  if location ≠ "" then
    filtered.filter fun ship => includes (toLowerCase ship.location.name) (toLowerCase location)
  else filtered

/-- The time-range stage: it runs when `timeRanges[filters.timeRange]` is truthy, and with
an inherited member in the place of the window no record passes the test. -/
def applyTimeRange (now : Int) (timeRange : String) (filtered : List ClientRecord) :
    List ClientRecord :=
  match timeRanges timeRange with
  | some window => filtered.filter fun ship => withinWindow now window ship.timeDetected
  | none =>
    if inheritedMembers.contains timeRange then filtered.filter fun _ => false
    else filtered

/-- The severity stage. -/
def applySeverity (severity : String) (filtered : List ClientRecord) : List ClientRecord :=
  if severity ≠ "all" then filtered.filter fun ship => ship.violation.severity = severity
  else filtered

/-- The five filter stages, in the order of the effect. -/
def filterStages (toLowerCase : String → String) (ships : List ClientRecord)
    (searchTerm : String) (filters : Filters) (now : Int) : List ClientRecord :=
  applySeverity filters.severity
    (applyTimeRange now filters.timeRange
      (applyLocation toLowerCase filters.location
        (applyViolationType filters.violationType
          (applySearch toLowerCase searchTerm ships))))

/-- The test `aValue < bValue` of the comparator on two records whose values could be
read: instants for `timeDetected`, code units for the string members, numbers for the
numeric members; for the object members and for a name no record has, neither `<` nor
`>` holds. -/
def valueLt (key : String) (a b : ClientRecord) : Bool :=
  if key = "timeDetected" then a.timeDetected.ms < b.timeDetected.ms
  else if key = "id" then codeUnits a.id < codeUnits b.id
  else if key = "name" then codeUnits a.name < codeUnits b.name
  else if key = "direction" then a.direction < b.direction
  else if key = "speed" then a.speed < b.speed
  else if key = "course" then a.course < b.course
  else false

/-- The result of the comparator on two records whose values could be read. -/
def compareShips (sortConfig : SortConfig) (a b : ClientRecord) : Int :=
  if valueLt sortConfig.key a b then (if sortConfig.direction = "asc" then -1 else 1)
  else if valueLt sortConfig.key b a then (if sortConfig.direction = "asc" then 1 else -1)
  else 0

/-- Whether `a[sortConfig.key].getTime()` throws on a record: a string has no `getTime`. -/
def getTimeThrows (a : ClientRecord) : Bool :=
  match a.timeDetected with
  | .date _ => false
  | .iso _ => true

/-- The `TypeError` of calling `getTime` on a string, with the text V8 gives it. -/
def getTimeError : Thrown :=
  .native "TypeError" "a[sortConfig.key].getTime is not a function"

/-- The sort stage: `Array.prototype.sort` is stable, and with two records or more it
hands every record to the comparator, which for the key `timeDetected` calls `getTime` on
the member. -/
def sortStage (sortConfig : SortConfig) (filtered : List ClientRecord) :
    Except Thrown (List ClientRecord) :=
  if sortConfig.key = "" then .ok filtered
  else if sortConfig.key = "timeDetected" ∧ 2 ≤ filtered.length ∧
      filtered.any getTimeThrows = true then .error getTimeError
  else .ok (filtered.insertionSort fun a b => compareShips sortConfig a b ≤ 0)

/-- The value the effect hands to `setFilteredShips`, or what it throws. -/
def filteredShips (toLowerCase : String → String) (ships : List ClientRecord)
    (searchTerm : String) (filters : Filters) (sortConfig : SortConfig) (now : Int) :
    Except Thrown (List ClientRecord) :=
  sortStage sortConfig (filterStages toLowerCase ships searchTerm filters now)

/-- The handler `handleSort` of `CurrentViolations.jsx`, `HistoricalData.jsx` and
`ShipsListPage.jsx`: the state that follows `prevSort` on a click on `key`. -/
def handleSort (prevSort : SortConfig) (key : String) : SortConfig :=
  { key := key
    direction := if prevSort.key = key ∧ prevSort.direction = "asc" then "desc" else "asc" }

/-! ## The sort of `ShipsListPage.jsx` (lines 99-122) -/

/-- The test `aValue < bValue` of the comparator of `sortedShips`. The instant of
`timeDetected` is read with `new Date(...)`, the name and the violation label are
lower-cased, every other member is compared as in `valueLt` (the default of the empty
string stands in for a falsy value only and compares like it). -/
def listValueLt (toLowerCase : String → String) (key : String) (a b : ClientRecord) : Bool :=
  if key = "timeDetected" then a.timeDetected.ms < b.timeDetected.ms
  else if key = "name" then codeUnits (toLowerCase a.name) < codeUnits (toLowerCase b.name)
  else if key = "violation" then
    codeUnits (toLowerCase a.violation.label) < codeUnits (toLowerCase b.violation.label)
  else if key = "id" then codeUnits a.id < codeUnits b.id
  else if key = "direction" then a.direction < b.direction
  else if key = "speed" then a.speed < b.speed
  else if key = "course" then a.course < b.course
  else false

/-- The comparator of `sortedShips`; it answers 0 when there is no sort key. -/
def compareListShips (toLowerCase : String → String) (sortConfig : SortConfig)
    (a b : ClientRecord) : Int :=
  if sortConfig.key = "" then 0
  else if listValueLt toLowerCase sortConfig.key a b then
    (if sortConfig.direction = "asc" then -1 else 1)
  else if listValueLt toLowerCase sortConfig.key b a then
    (if sortConfig.direction = "asc" then 1 else -1)
  else 0

/-- The array `sortedShips`. -/
def sortedShips (toLowerCase : String → String) (sortConfig : SortConfig)
    (ships : List ClientRecord) : List ClientRecord :=
  ships.insertionSort fun a b => compareListShips toLowerCase sortConfig a b ≤ 0

/-- Lower-casing of the letters A to Z, on which `toLowerCase` agrees with it. -/
def asciiLower (s : String) : String :=
  String.mk (s.data.map Char.toLower)

/-- A record with a given name, to show a sort on. -/
def recordNamed (name : String) : ClientRecord :=
  { id := "1"
    name := name
    location := { lat := 10, lng := 150, name := "10.0000Â°N, 150.0000Â°E" }
    direction := 0
    violation := { type := "monitoring", label := "Monitoring", severity := "info" }
    timeDetected := .iso 0
    speed := 0
    course := 0 }

/-- The request `fetchShipsFromAPI` of `CurrentViolations` sends with an empty search
term: `buildQueryParams` keeps the limit and the offset and drops the empty term. -/
def clientQuery : Query :=
  { limit := some "50", offset := some "0" }

/-! ## A store with a report that has no coordinates -/

/-- A report of ship B that carries neither latitude nor longitude. -/
def reportBare : PositionReport :=
  { UserID := some 2, received_timestamp := some 7 }

/-- A store with ship B and that report only. -/
def bareStore : Store :=
  { ships := [shipB], positions := [reportBare] }

/-- The response to the default request on that store at clock value 0. -/
def bareResponse : Response :=
  { success := true
    data := []
    pagination := { total := 1, limit := 50, offset := 0, hasMore := true }
    timestamp := 0 }

/-! ## The violation-type checkboxes of `FilterSidebar.jsx` -/

/-- The types the three violation-type checkboxes stand for. -/
def sidebarTypes : List String :=
  ["wrong-route", "speed-violation", "area-restriction"]

/-- The handler `handleViolationTypeChange`: the filters it hands to `onFilterChange`. -/
def handleViolationTypeChange (filters : Filters) (type : String) (checked : Bool) : Filters :=
  { filters with
    violationType :=
      if checked then filters.violationType ++ [type]
      else filters.violationType.filter fun t => t ≠ type }

/-! ## Pagination of the views

`CurrentViolations.jsx` (lines 215-220), `ShipsListPage.jsx` (lines 161-166) and
`HistoricalData.jsx` (lines 181-186) cut their list into pages the same way, with a page
size of 10, 15 and 20. -/

/-- The method `Array.prototype.slice` with both bounds given as integers: a negative
bound counts from the end, and both are clamped to the array. -/
def slice {α : Type} (l : List α) (start stop : Int) : List α :=
  let len : Int := l.length
  let k : Int := if start < 0 then max (len + start) 0 else min start len
  let final : Int := if stop < 0 then max (len + stop) 0 else min stop len
  (l.drop k.toNat).take (final - k).toNat

/-- The value `totalPages = Math.ceil(length / itemsPerPage)` for a page size above zero. -/
def totalPages (length itemsPerPage : Nat) : Int :=
  ⌈(length : ℚ) / (itemsPerPage : ℚ)⌉

/-- The array `paginatedShips`: the page `currentPage` of the list. -/
def paginatedShips {α : Type} (ships : List α) (currentPage : Int) (itemsPerPage : Nat) :
    List α :=
  slice ships ((currentPage - 1) * itemsPerPage) (currentPage * itemsPerPage)

/-! ## The state of the views

`CurrentViolations.jsx` and `ShipsListPage.jsx` keep their state in `useState` cells. A
transition below is the state after a handler ran to its end and the effects it set off
ran: `fetched` is what `fetchShipsFromAPI` settled with (the array `response.data || []`
or the error it threw again), `updated` the clock read by `setLastUpdate(new Date())`
and `now` the clock read by the filter effect. -/

/-- A text of the error object of a view: a literal of the component, the expression
`err.message || fallback`, or the call `getErrorMessage(err)`. -/
inductive ErrorText where
  | literal (text : String)
  | messageOr (err : Thrown) (fallback : String)
  | getErrorMessage (err : Thrown)

/-- The object handed to `setError`. -/
structure ViewError where
  type : Json
  message : ErrorText
  description : ErrorText

/-- The error object of `loadData` and `refreshData`. -/
def failureError (err : Thrown) (type fallback : String) : ViewError :=
  { type := Json.orElse err.code (.str type)
    message := .messageOr err fallback
    description := .getErrorMessage err }

/-- The error object of the periodic update. -/
def updateError (err : Thrown) : ViewError :=
  { type := Json.orElse err.code (.str "update_error")
    message := .literal "Connection lost"
    description := .literal "Unable to get real-time updates. Showing last known data." }

/-- The state of `CurrentViolations`. -/
structure CurrentViolations.State where
  ships : List ClientRecord
  filteredShips : List ClientRecord
  loading : Bool
  error : Option ViewError
  connectionStatus : String
  lastUpdate : Int
  filters : Filters
  searchTerm : String
  viewMode : String
  sortConfig : SortConfig
  currentPage : Int

/-- The page size of `CurrentViolations`. -/
def CurrentViolations.itemsPerPage : Nat := 10

/-- The filter and sort effect (lines 109-169): React runs it after a render in which
`ships`, `searchTerm`, `filters` or `sortConfig` is a new value. -/
def CurrentViolations.filterEffect (toLowerCase : String → String) (now : Int)
    (s : CurrentViolations.State) : Except Thrown CurrentViolations.State :=
  match ShipTracker.filteredShips toLowerCase s.ships s.searchTerm s.filters s.sortConfig now with
  | .ok filtered => .ok { s with filteredShips := filtered, currentPage := 1 }
  | .error e => .error e

/-- The function `loadData` (lines 46-70). -/
def CurrentViolations.loadData (toLowerCase : String → String) (updated now : Int)
    (s : CurrentViolations.State) (fetched : Except Thrown (List ClientRecord)) :
    Except Thrown CurrentViolations.State :=
  match fetched with
  | .ok ships =>
    CurrentViolations.filterEffect toLowerCase now
      { s with
        loading := false, error := none, ships := ships, lastUpdate := updated,
        connectionStatus := "connected" }
  | .error err =>
    .ok { s with
      loading := false
      connectionStatus := getConnectionStatus (some err)
      error := some (failureError err "api_error" "Failed to load ship data") }

/-- The callback of the periodic update (lines 79-104), which runs every 30 seconds while
`connectionStatus` is `connected`. -/
def CurrentViolations.intervalUpdate (toLowerCase : String → String) (updated now : Int)
    (s : CurrentViolations.State) (fetched : Except Thrown (List ClientRecord)) :
    Except Thrown CurrentViolations.State :=
  match fetched with
  | .ok updatedShips =>
    CurrentViolations.filterEffect toLowerCase now
      (if s.error.isSome then
        { s with
          ships := updatedShips, lastUpdate := updated, error := none,
          connectionStatus := "connected" }
      else { s with ships := updatedShips, lastUpdate := updated })
  | .error err =>
    let status := getConnectionStatus (some err)
    .ok (if status = "disconnected" ∨ status = "timeout" then
      { s with connectionStatus := status, error := some (updateError err) }
    else { s with connectionStatus := status })

/-- The function `refreshData` (lines 186-213). -/
def CurrentViolations.refreshData (toLowerCase : String → String) (updated now : Int)
    (s : CurrentViolations.State) (fetched : Except Thrown (List ClientRecord)) :
    Except Thrown CurrentViolations.State :=
  match fetched with
  | .ok ships =>
    CurrentViolations.filterEffect toLowerCase now
      { s with
        loading := false, ships := ships, lastUpdate := updated, error := none,
        connectionStatus := "connected" }
  | .error err =>
    .ok { s with
      loading := false
      connectionStatus := getConnectionStatus (some err)
      error := some (failureError err "refresh_error" "Failed to refresh data") }

/-- The handler `handleFilterChange`: the sidebar hands it a new object every time. -/
def CurrentViolations.handleFilterChange (toLowerCase : String → String) (now : Int)
    (s : CurrentViolations.State) (newFilters : Filters) :
    Except Thrown CurrentViolations.State :=
  CurrentViolations.filterEffect toLowerCase now { s with filters := newFilters }

/-- The handler `handleSort` on the state: the updater builds a new object every time. -/
def CurrentViolations.handleSort (toLowerCase : String → String) (now : Int)
    (s : CurrentViolations.State) (key : String) : Except Thrown CurrentViolations.State :=
  CurrentViolations.filterEffect toLowerCase now
    { s with sortConfig := ShipTracker.handleSort s.sortConfig key }

/-- The handler `handleSearch`: React renders again, and runs the effect, only when the
term is another string than the one it holds. -/
def CurrentViolations.handleSearch (toLowerCase : String → String) (now : Int)
    (s : CurrentViolations.State) (term : String) : Except Thrown CurrentViolations.State :=
  if term = s.searchTerm then .ok s
  else CurrentViolations.filterEffect toLowerCase now { s with searchTerm := term }

/-- The setter `setCurrentPage`, which the table calls as `onPageChange`. -/
def CurrentViolations.setCurrentPage (s : CurrentViolations.State) (page : Int) :
    CurrentViolations.State :=
  { s with currentPage := page }

/-- The state of `ShipsListPage`. -/
structure ShipsListPage.State where
  ships : List ClientRecord
  loading : Bool
  error : Option ViewError
  connectionStatus : String
  lastUpdate : Int
  viewMode : String
  sortConfig : SortConfig
  currentPage : Int

/-- The page size of `ShipsListPage`. -/
def ShipsListPage.itemsPerPage : Nat := 15

/-- The function `loadData` (lines 38-62). -/
def ShipsListPage.loadData (updated : Int) (s : ShipsListPage.State)
    (fetched : Except Thrown (List ClientRecord)) : ShipsListPage.State :=
  match fetched with
  | .ok ships =>
    { s with
      loading := false, error := none, ships := ships, lastUpdate := updated,
      connectionStatus := "connected" }
  | .error err =>
    { s with
      loading := false
      connectionStatus := getConnectionStatus (some err)
      error := some (failureError err "api_error" "Failed to load ships data") }

/-- The callback of the periodic update (lines 69-94), which runs every 45 seconds while
`connectionStatus` is `connected`. -/
def ShipsListPage.intervalUpdate (updated : Int) (s : ShipsListPage.State)
    (fetched : Except Thrown (List ClientRecord)) : ShipsListPage.State :=
  match fetched with
  | .ok updatedShips =>
    if s.error.isSome then
      { s with
        ships := updatedShips, lastUpdate := updated, error := none,
        connectionStatus := "connected" }
    else { s with ships := updatedShips, lastUpdate := updated }
  | .error err =>
    let status := getConnectionStatus (some err)
    if status = "disconnected" ∨ status = "timeout" then
      { s with connectionStatus := status, error := some (updateError err) }
    else { s with connectionStatus := status }

/-- The function `refreshData` (lines 132-159). -/
def ShipsListPage.refreshData (updated : Int) (s : ShipsListPage.State)
    (fetched : Except Thrown (List ClientRecord)) : ShipsListPage.State :=
  match fetched with
  | .ok ships =>
    { s with
      loading := false, ships := ships, lastUpdate := updated, error := none,
      connectionStatus := "connected" }
  | .error err =>
    { s with
      loading := false
      connectionStatus := getConnectionStatus (some err)
      error := some (failureError err "refresh_error" "Failed to refresh data") }

/-- The handler `handleSort` on the state (lines 124-129). -/
def ShipsListPage.handleSort (s : ShipsListPage.State) (key : String) : ShipsListPage.State :=
  { s with sortConfig := ShipTracker.handleSort s.sortConfig key }

/-- The setter `setCurrentPage`, which the table calls as `onPageChange`. -/
def ShipsListPage.setCurrentPage (s : ShipsListPage.State) (page : Int) :
    ShipsListPage.State :=
  { s with currentPage := page }

/-- Sixteen records named "a" to "p". -/
def sixteenRecords : List ClientRecord :=
  ["a", "b", "c", "d", "e", "f", "g", "h", "i", "j", "k", "l", "m", "n", "o", "p"].map
    recordNamed

/-- A state of `ShipsListPage` on page 2 of those sixteen records, in its initial sort. -/
def ShipsListPage.onPageTwo : ShipsListPage.State :=
  { ships := sixteenRecords
    loading := false
    error := none
    connectionStatus := "connected"
    lastUpdate := 20
    viewMode := "list"
    sortConfig := { key := "name", direction := "asc" }
    currentPage := 2 }

/-! ## What reaches the state of `CurrentViolations`

The handlers of the view are called by its effects and its timer, by the sidebar, by the
table and by the controls of the page; the snapshots it stores are the `data` of a
response as the JSON text delivers it. -/

/-- The values of the options of the time-range select of `FilterSidebar.jsx`. -/
def timeRangeOptions : List String :=
  ["1h", "24h", "7d", "30d"]

/-- The handler `handleInputChange` of `FilterSidebar.jsx`, which the sidebar calls with
the fields `location`, `timeRange` and `severity`. -/
def handleInputChange (filters : Filters) (field value : String) : Filters :=
  if field = "location" then { filters with location := value }
  else if field = "timeRange" then { filters with timeRange := value }
  else if field = "severity" then { filters with severity := value }
  else filters

/-- The filters of `clearAllFilters` of the sidebar and of `onClearFilters` of the view. -/
def clearedFilters : Filters :=
  { violationType := [], location := "", timeRange := "24h", severity := "all" }

/-- The filters of the three quick-filter buttons of the sidebar. -/
def quickFilters : List Filters :=
  [{ violationType := ["wrong-route"], location := "", timeRange := "1h", severity := "all" },
    { violationType := [], location := "", timeRange := "24h", severity := "danger" },
    { violationType := ["speed-violation"], location := "", timeRange := "7d", severity := "all" }]

/-- The filters the sidebar hands to `onFilterChange` while it shows `filters`: a checkbox
or the button of a badge changes the set of types, the text field the location, the select
the time range to one of its options, a radio button or the button of a badge the
severity, and the buttons set the cleared filters or one of the quick filters. -/
inductive FilterSidebar.Sends (filters : Filters) : Filters → Prop where
  | violationType (type : String) (checked : Bool) :
    FilterSidebar.Sends filters (handleViolationTypeChange filters type checked)
  | location (value : String) :
    FilterSidebar.Sends filters (handleInputChange filters "location" value)
  | timeRange (value : String) (h : value ∈ timeRangeOptions) :
    FilterSidebar.Sends filters (handleInputChange filters "timeRange" value)
  | severity (value : String) :
    FilterSidebar.Sends filters (handleInputChange filters "severity" value)
  | clearAll : FilterSidebar.Sends filters clearedFilters
  | quick (preset : Filters) (h : preset ∈ quickFilters) : FilterSidebar.Sends filters preset

/-- The state of `CurrentViolations` once it is mounted: the initial values of its cells,
with which the filter effect ran on the empty snapshot. -/
def CurrentViolations.initialState (lastUpdate : Int) : CurrentViolations.State :=
  { ships := []
    filteredShips := []
    loading := true
    error := none
    connectionStatus := "connected"
    lastUpdate := lastUpdate
    filters := initialFilters
    searchTerm := ""
    viewMode := "list"
    sortConfig := initialSortConfig
    currentPage := 1 }

/-- The handler `onClearFilters` the view gives to its empty state (lines 389-397). -/
def CurrentViolations.onClearFilters (toLowerCase : String → String) (now : Int)
    (s : CurrentViolations.State) : Except Thrown CurrentViolations.State :=
  CurrentViolations.filterEffect toLowerCase now
    { s with searchTerm := "", filters := clearedFilters }

/-- The states `CurrentViolations` gets into. A fetch settles with the `data` of a
response, as delivered, or with an error; `loadData` and `refreshData` set `loading`
before they wait for it; the table shows its page controls, which call `setCurrentPage`,
when there is more than one page and nothing is loading. -/
inductive CurrentViolations.Reachable (toLowerCase : String → String) :
    CurrentViolations.State → Prop where
  | mount (lastUpdate : Int) :
    CurrentViolations.Reachable toLowerCase (CurrentViolations.initialState lastUpdate)
  | beginLoad {s : CurrentViolations.State} :
    CurrentViolations.Reachable toLowerCase s →
    CurrentViolations.Reachable toLowerCase { s with loading := true, error := none }
  | loadData {s t : CurrentViolations.State} (updated now : Int)
      (fetched : Except Thrown Response) :
    CurrentViolations.Reachable toLowerCase s →
    CurrentViolations.loadData toLowerCase updated now s (fetched.map snapshotOf) = .ok t →
    CurrentViolations.Reachable toLowerCase t
  | intervalUpdate {s t : CurrentViolations.State} (updated now : Int)
      (fetched : Except Thrown Response) :
    CurrentViolations.Reachable toLowerCase s →
    CurrentViolations.intervalUpdate toLowerCase updated now s (fetched.map snapshotOf) = .ok t →
    CurrentViolations.Reachable toLowerCase t
  | beginRefresh {s : CurrentViolations.State} :
    CurrentViolations.Reachable toLowerCase s →
    CurrentViolations.Reachable toLowerCase { s with loading := true }
  | refreshData {s t : CurrentViolations.State} (updated now : Int)
      (fetched : Except Thrown Response) :
    CurrentViolations.Reachable toLowerCase s →
    CurrentViolations.refreshData toLowerCase updated now s (fetched.map snapshotOf) = .ok t →
    CurrentViolations.Reachable toLowerCase t
  | handleFilterChange {s t : CurrentViolations.State} (now : Int) (newFilters : Filters) :
    CurrentViolations.Reachable toLowerCase s →
    FilterSidebar.Sends s.filters newFilters →
    CurrentViolations.handleFilterChange toLowerCase now s newFilters = .ok t →
    CurrentViolations.Reachable toLowerCase t
  | onClearFilters {s t : CurrentViolations.State} (now : Int) :
    CurrentViolations.Reachable toLowerCase s →
    CurrentViolations.onClearFilters toLowerCase now s = .ok t →
    CurrentViolations.Reachable toLowerCase t
  | handleSort {s t : CurrentViolations.State} (now : Int) (key : String) :
    CurrentViolations.Reachable toLowerCase s →
    CurrentViolations.handleSort toLowerCase now s key = .ok t →
    CurrentViolations.Reachable toLowerCase t
  | handleSearch {s t : CurrentViolations.State} (now : Int) (term : String) :
    CurrentViolations.Reachable toLowerCase s →
    CurrentViolations.handleSearch toLowerCase now s term = .ok t →
    CurrentViolations.Reachable toLowerCase t
  | setViewMode {s : CurrentViolations.State} (mode : String) :
    CurrentViolations.Reachable toLowerCase s →
    CurrentViolations.Reachable toLowerCase { s with viewMode := mode }
  | setCurrentPage {s : CurrentViolations.State} (page : Int) :
    CurrentViolations.Reachable toLowerCase s →
    s.loading = false →
    1 < totalPages s.filteredShips.length CurrentViolations.itemsPerPage →
    CurrentViolations.Reachable toLowerCase (CurrentViolations.setCurrentPage s page)

/-- The state of `CurrentViolations` after it mounted at the clock 0 and its load
delivered the sample response at the clock 10. -/
def CurrentViolations.loadedState : CurrentViolations.State :=
  { ships := snapshotOf exampleResponse
    filteredShips := []
    loading := false
    error := none
    connectionStatus := "connected"
    lastUpdate := 10
    filters := initialFilters
    searchTerm := ""
    viewMode := "list"
    sortConfig := initialSortConfig
    currentPage := 1 }

/-! ## Decimal digits of `Nat.repr` -/

theorem digitsValue_append_singleton (cs : List Char) (c : Char) :
    digitsValue (cs ++ [c]) = digitsValue cs * 10 + (c.toNat - 48) := by
  simp [digitsValue, List.foldl_append]

theorem digitChar_spec :
    ∀ k, k < 10 → (Nat.digitChar k).toNat - 48 = k ∧ 48 ≤ (Nat.digitChar k).toNat ∧
      (Nat.digitChar k).toNat ≤ 57 := by
  decide

/-- The digits `Nat.toDigitsCore` puts in front of its accumulator denote the number, are
decimal digit characters and are at least one. -/
theorem toDigitsCore_spec (fuel : Nat) :
    ∀ (n : Nat) (ds : List Char), n < fuel →
      ∃ pre : List Char, Nat.toDigitsCore 10 fuel n ds = pre ++ ds ∧ digitsValue pre = n ∧
        pre ≠ [] ∧ ∀ c ∈ pre, 48 ≤ c.toNat ∧ c.toNat ≤ 57 := by
  induction fuel with
  | zero => intro n ds h; omega
  | succ fuel ih =>
    intro n ds h
    have hd := digitChar_spec (n % 10) (Nat.mod_lt _ (by decide))
    unfold Nat.toDigitsCore
    by_cases h0 : n / 10 = 0
    · refine ⟨[Nat.digitChar (n % 10)], by simp [h0], ?_, by simp, ?_⟩
      · have : digitsValue [Nat.digitChar (n % 10)] = (Nat.digitChar (n % 10)).toNat - 48 := by
          simp [digitsValue]
        rw [this, hd.1]; omega
      · intro c hc
        simp only [List.mem_singleton] at hc
        subst hc
        exact hd.2
    · obtain ⟨pre, hpre, hval, -, hdig⟩ :=
        ih (n / 10) (Nat.digitChar (n % 10) :: ds) (by omega)
      refine ⟨pre ++ [Nat.digitChar (n % 10)], by simp [h0, hpre], ?_, by simp, ?_⟩
      · rw [digitsValue_append_singleton, hval, hd.1]; omega
      · intro c hc
        rcases List.mem_append.mp hc with hc | hc
        · exact hdig c hc
        · simp only [List.mem_singleton] at hc
          subst hc
          exact hd.2

theorem repr_spec (n : Nat) :
    digitsValue (Nat.repr n).data = n ∧ (Nat.repr n).data ≠ [] ∧
      ∀ c ∈ (Nat.repr n).data, 48 ≤ c.toNat ∧ c.toNat ≤ 57 := by
  obtain ⟨pre, hpre, hval, hne, hdig⟩ := toDigitsCore_spec (n + 1) n [] (by omega)
  have h : (Nat.repr n).data = pre := by
    simp [Nat.repr, Nat.toDigits, hpre, List.asString]
  rw [h]
  exact ⟨hval, hne, hdig⟩

theorem repr_injective (a b : Nat) (h : Nat.repr a = Nat.repr b) : a = b := by
  rw [← (repr_spec a).1, ← (repr_spec b).1, h]

/-- The first character of a `numberToString` result is a digit or the minus sign. -/
theorem numberToString_head (n : Int) :
    ∃ c cs, (numberToString n).data = c :: cs ∧ (c.toNat = 45 ∨ (48 ≤ c.toNat ∧ c.toNat ≤ 57)) := by
  unfold numberToString
  split
  · exact ⟨Char.ofNat 45, (Nat.repr n.natAbs).data, rfl, Or.inl rfl⟩
  · obtain ⟨-, hne, hdig⟩ := repr_spec n.natAbs
    cases hr : (Nat.repr n.natAbs).data with
    | nil => exact absurd hr hne
    | cons c cs => exact ⟨c, cs, rfl, Or.inr (hdig c (by rw [hr]; simp))⟩

theorem numberToString_ne_empty (n : Int) : numberToString n ≠ "" := by
  obtain ⟨c, cs, h, -⟩ := numberToString_head n
  intro h0
  rw [h0] at h
  cases h

theorem numberToString_ne_unknown (n : Int) : numberToString n ≠ "unknown" := by
  obtain ⟨c, cs, h, hc⟩ := numberToString_head n
  intro h0
  rw [h0] at h
  have : c = Char.ofNat 117 := by
    injection h with h1 h2
    exact h1.symm
  subst this
  revert hc
  decide

theorem numberToString_injective (a b : Int) (h : numberToString a = numberToString b) :
    a = b := by
  unfold numberToString at h
  have hdata := congrArg String.data h
  by_cases ha : a < 0 <;> by_cases hb : b < 0 <;> simp only [ha, hb, if_true, if_false] at hdata
  · have : (Nat.repr a.natAbs).data = (Nat.repr b.natAbs).data := by
      simpa using hdata
    have := repr_injective _ _ (String.ext this)
    omega
  · exfalso
    obtain ⟨-, hne, hdig⟩ := repr_spec b.natAbs
    cases hr : (Nat.repr b.natAbs).data with
    | nil => exact hne hr
    | cons c cs =>
      have hc := hdig c (by rw [hr]; simp)
      rw [hr] at hdata
      have : c = Char.ofNat 45 := by
        simp at hdata
        exact hdata.1.symm
      subst this
      revert hc
      decide
  · exfalso
    obtain ⟨-, hne, hdig⟩ := repr_spec a.natAbs
    cases hr : (Nat.repr a.natAbs).data with
    | nil => exact hne hr
    | cons c cs =>
      have hc := hdig c (by rw [hr]; simp)
      rw [hr] at hdata
      have : c = Char.ofNat 45 := by
        simp at hdata
        exact hdata.1
      subst this
      revert hc
      decide
  · have := repr_injective _ _ (String.ext hdata)
    omega

/-! ## The aggregation stages -/

theorem bsonLe_refl (a : Option Int) : bsonLe a a = true := by
  cases a <;> simp [bsonLe]

theorem bsonLe_total (a b : Option Int) : bsonLe a b = true ∨ bsonLe b a = true := by
  cases a <;> cases b <;> simp [bsonLe]
  omega

theorem bsonLe_trans (a b c : Option Int) (hab : bsonLe a b = true) (hbc : bsonLe b c = true) :
    bsonLe a c = true := by
  cases a <;> cases b <;> cases c <;> simp_all [bsonLe]
  omega

/-- Element `0` of the sorted array exists for a non-empty array, is one of its reports and
is at least as recent as each of them. -/
theorem head_sortArray (ps : List PositionReport) (hne : ps ≠ []) :
    ∃ p, (sortArray ps).head? = some p ∧ p ∈ ps ∧
      ∀ q ∈ ps, bsonLe q.received_timestamp p.received_timestamp = true := by
  haveI : IsTotal PositionReport
      (fun a b => bsonLe b.received_timestamp a.received_timestamp = true) :=
    ⟨fun a b => bsonLe_total b.received_timestamp a.received_timestamp⟩
  haveI : IsTrans PositionReport
      (fun a b => bsonLe b.received_timestamp a.received_timestamp = true) :=
    ⟨fun _ _ _ hab hbc => bsonLe_trans _ _ _ hbc hab⟩
  have hperm : List.Perm (sortArray ps) ps := List.perm_insertionSort _ ps
  have hsorted : (sortArray ps).Sorted
      (fun a b => bsonLe b.received_timestamp a.received_timestamp = true) :=
    List.sorted_insertionSort _ ps
  cases hs : sortArray ps with
  | nil =>
    rw [hs] at hperm
    exact absurd hperm.symm.eq_nil hne
  | cons p rest =>
    rw [hs] at hperm hsorted
    refine ⟨p, rfl, hperm.subset (List.mem_cons_self p rest), ?_⟩
    intro q hq
    rcases List.mem_cons.mp (hperm.symm.subset hq) with h | h
    · rw [h]; exact bsonLe_refl _
    · exact List.rel_of_sorted_cons hsorted q h

/-- The documents that reach the search stage of the counting pipeline. -/
theorem mem_matchHasPositions_lookup (store : Store) (d : JoinedShip) :
    d ∈ matchHasPositions (lookup store.positions store.ships) ↔
      d.ship ∈ store.ships ∧
        d.positions = store.positions.filter (fun p => p.UserID = d.ship.UserID) ∧
        d.positions ≠ [] ∧ d.latestPosition = none := by
  unfold matchHasPositions lookup
  simp only [List.mem_filter, List.mem_map, decide_eq_true_eq]
  constructor
  · rintro ⟨⟨s, hs, rfl⟩, hne⟩
    exact ⟨hs, rfl, hne, rfl⟩
  · rintro ⟨hs, hp, hne, hl⟩
    refine ⟨⟨d.ship, hs, ?_⟩, hne⟩
    cases d
    simp_all

/-- A successful search stage is a filter that looks at the ship only, the same filter
whatever the documents it is run on. -/
theorem searchStage_ok (re : RegexEngine) (search : String) (docs found : List JoinedShip)
    (h : searchStage re search docs = .ok found) :
    ∃ keep : Ship → Bool, found = docs.filter (fun d => keep d.ship) ∧
      ∀ docs2, searchStage re search docs2 = .ok (docs2.filter (fun d => keep d.ship)) := by
  unfold searchStage at h
  by_cases hs : search = ""
  · rw [if_pos hs] at h
    refine ⟨fun _ => true, ?_, ?_⟩
    · injection h with h
      simp [← h]
    · intro docs2
      simp [searchStage, hs]
  · rw [if_neg hs] at h
    cases hm : re search with
    | none => rw [hm] at h; cases h
    | some m =>
      rw [hm] at h
      refine ⟨fun s => fieldMatches m s.Name || fieldMatches m s.CallSign ||
        fieldMatches m s.Destination, ?_, ?_⟩
      · injection h with h
        rw [← h]; rfl
      · intro docs2
        simp only [searchStage, hs, if_false, hm]
        rfl

theorem filter_addLatestPosition (keep : Ship → Bool) (docs : List JoinedShip) :
    (addLatestPosition docs).filter (fun d => keep d.ship) =
      addLatestPosition (docs.filter (fun d => keep d.ship)) := by
  unfold addLatestPosition
  rw [List.filter_map]
  rfl

theorem headD_countStage (docs : List JoinedShip) : (countStage docs).headD 0 = docs.length := by
  unfold countStage
  split
  · next h => simp [h]
  · simp

/-- What a `200` response is made of. -/
theorem activeShips_ok (re : RegexEngine) (store : Store) (query : Query) (now : Int)
    (resp : Response) (h : activeShips re store query now = .ok resp) :
    ∃ (keep : Ship → Bool) (off lim : Int),
      0 ≤ off ∧ 1 ≤ lim ∧ parseParam query.offset 0 = some off ∧
      parseParam query.limit 50 = some lim ∧
      (∀ docs, searchStage re (query.search.getD "") docs =
        .ok (docs.filter (fun d => keep d.ship))) ∧
      pipeline re store (query.search.getD "") (some off) (some lim) =
        .ok (((addLatestPosition ((matchHasPositions
          (lookup store.positions store.ships)).filter (fun d => keep d.ship))).drop
            off.toNat).take lim.toNat) ∧
      resp.data = transformedShips (((addLatestPosition ((matchHasPositions
          (lookup store.positions store.ships)).filter (fun d => keep d.ship))).drop
            off.toNat).take lim.toNat) now ∧
      resp.pagination.total = ((matchHasPositions
          (lookup store.positions store.ships)).filter (fun d => keep d.ship)).length ∧
      resp.pagination.offset = off ∧ resp.pagination.limit = lim ∧
      resp.pagination.hasMore =
        decide (off + (resp.data.length : Int) < (resp.pagination.total : Int)) := by
  unfold activeShips at h
  simp only [] at h
  cases hpipe : pipeline re store (query.search.getD "") (parseParam query.offset 0)
      (parseParam query.limit 50) with
  | error e => simp [hpipe, bind, Except.bind] at h
  | ok ships =>
    unfold pipeline at hpipe
    cases hfound : searchStage re (query.search.getD "")
        (addLatestPosition (matchHasPositions (lookup store.positions store.ships))) with
    | error e => simp [hfound, bind, Except.bind] at hpipe
    | ok found =>
      obtain ⟨keep, hkeep, hall⟩ := searchStage_ok _ _ _ _ hfound
      cases hoff : parseParam query.offset 0 with
      | none => simp [hfound, hoff, bind, Except.bind, skipStage] at hpipe
      | some off =>
        cases hlim : parseParam query.limit 50 with
        | none =>
          simp only [hfound, hoff, hlim, bind, Except.bind, skipStage, limitStage] at hpipe
          split at hpipe <;> simp at hpipe
        | some lim =>
          simp only [hfound, hoff, hlim, bind, Except.bind, skipStage, limitStage] at hpipe
          by_cases ho : 0 ≤ off ∧ off ≤ 2 ^ 63 - 1
          · by_cases hl : 1 ≤ lim ∧ lim ≤ 2 ^ 63 - 1
            · simp only [ho, hl, and_self, if_true] at hpipe
              injection hpipe with hships
              rw [filter_addLatestPosition] at hkeep
              subst hkeep
              subst hships
              have hpipe2 : pipeline re store (query.search.getD "") (some off) (some lim) =
                  .ok (((addLatestPosition ((matchHasPositions
                    (lookup store.positions store.ships)).filter (fun d => keep d.ship))).drop
                      off.toNat).take lim.toNat) := by
                unfold pipeline
                simp only [hfound, bind, Except.bind, skipStage, limitStage, ho, hl, and_self,
                  if_true]
              have htot : totalPipeline re store (query.search.getD "") =
                  .ok (countStage ((matchHasPositions
                    (lookup store.positions store.ships)).filter (fun d => keep d.ship))) := by
                unfold totalPipeline
                simp only [hall, bind, Except.bind, pure, Except.pure]
              simp only [hoff, hlim, hpipe2, htot, bind, Except.bind, pure, Except.pure,
                Option.getD_some, headD_countStage] at h
              injection h with h
              subst h
              exact ⟨keep, off, lim, ho.1, hl.1, rfl, rfl, hall, hpipe2, rfl, rfl, rfl, rfl, rfl⟩
            · simp only [ho, hl, and_self, if_true, if_false] at hpipe
              cases hpipe
          · simp only [ho, if_false] at hpipe
            cases hpipe

theorem transformShipData_id_eq (s t : Ship) (p q : PositionReport) (now later : Int)
    (h : (transformShipData s p now).id = (transformShipData t q later).id) :
    s.UserID = t.UserID := by
  simp only [transformShipData] at h
  cases hs : s.UserID with
  | none =>
    cases ht : t.UserID with
    | none => rfl
    | some b =>
      simp only [hs, ht, Option.map, orStr, bne_iff_ne, ne_eq, numberToString_ne_empty,
        not_false_eq_true, if_true] at h
      exact absurd h.symm (numberToString_ne_unknown b)
  | some a =>
    cases ht : t.UserID with
    | none =>
      simp only [hs, ht, Option.map, orStr, bne_iff_ne, ne_eq, numberToString_ne_empty,
        not_false_eq_true, if_true] at h
      exact absurd h (numberToString_ne_unknown a)
    | some b =>
      simp only [hs, ht, Option.map, orStr, bne_iff_ne, ne_eq, numberToString_ne_empty,
        not_false_eq_true, if_true] at h
      rw [numberToString_injective a b h]

/-- The documents the main pipeline hands to pagination. -/
theorem mem_addLatestPosition_filter (store : Store) (keep : Ship → Bool) (d : JoinedShip)
    (hd : d ∈ addLatestPosition ((matchHasPositions
      (lookup store.positions store.ships)).filter (fun d => keep d.ship))) :
    d.ship ∈ store.ships ∧
      d.positions = store.positions.filter (fun p => p.UserID = d.ship.UserID) ∧
      d.positions ≠ [] ∧ d.latestPosition = (sortArray d.positions).head? := by
  unfold addLatestPosition at hd
  obtain ⟨e, he, rfl⟩ := List.mem_map.mp hd
  obtain ⟨hs, hp, hne, -⟩ := (mem_matchHasPositions_lookup store e).mp (List.mem_filter.mp he).1
  exact ⟨hs, hp, hne, rfl⟩

theorem mem_transformedShips (ships : List JoinedShip) (now : Int) (r : ViewRecord)
    (hr : r ∈ transformedShips ships now) :
    ∃ d ∈ ships, ∃ p, d.latestPosition = some p ∧ truthyNum p.Latitude = true ∧
      truthyNum p.Longitude = true ∧ r = transformShipData d.ship p now := by
  unfold transformedShips at hr
  obtain ⟨d, hd, hdr⟩ := List.mem_filterMap.mp hr
  obtain ⟨hmem, hc⟩ := List.mem_filter.mp hd
  cases hl : d.latestPosition with
  | none => simp [hl] at hdr
  | some p =>
    simp only [hl, Option.map_some', Option.some.injEq] at hdr
    simp only [hasCoordinates, hl, Bool.and_eq_true] at hc
    exact ⟨d, hmem, p, hl, hc.1, hc.2, hdr.symm⟩

theorem length_transformedShips (ships : List JoinedShip) (now : Int) :
    (transformedShips ships now).length = (ships.filter hasCoordinates).length := by
  unfold transformedShips
  induction ships with
  | nil => rfl
  | cons d ds ih =>
    by_cases hc : hasCoordinates d = true
    · rw [List.filter_cons_of_pos hc]
      cases hl : d.latestPosition with
      | none => simp [hasCoordinates, hl] at hc
      | some p => simp [List.filterMap_cons, hl, ih]
    · rw [List.filter_cons_of_neg hc]
      exact ih

/-- Every record of a `200` response is built from a ship of the store and from element
`0` of that ship's sorted, non-empty list of reports. -/
theorem mem_data (re : RegexEngine) (store : Store) (query : Query) (now : Int)
    (resp : Response) (h : activeShips re store query now = .ok resp) (r : ViewRecord)
    (hr : r ∈ resp.data) :
    ∃ s ∈ store.ships, ∃ p,
      store.positions.filter (fun q => q.UserID = s.UserID) ≠ [] ∧
      (sortArray (store.positions.filter (fun q => q.UserID = s.UserID))).head? = some p ∧
      truthyNum p.Latitude = true ∧ truthyNum p.Longitude = true ∧
      r = transformShipData s p now := by
  obtain ⟨keep, off, lim, -, -, -, -, -, -, hdata, -⟩ := activeShips_ok re store query now resp h
  rw [hdata] at hr
  obtain ⟨d, hd, p, hl, hlat, hlng, hrec⟩ := mem_transformedShips _ now r hr
  obtain ⟨hs, hp, hne, hlatest⟩ :=
    mem_addLatestPosition_filter store keep d (List.mem_of_mem_drop (List.mem_of_mem_take hd))
  refine ⟨d.ship, hs, p, ?_, ?_, hlat, hlng, hrec⟩
  · rw [← hp]; exact hne
  · rw [← hp, ← hlatest]; exact hl

/-! ## Claims on the active-ships query -/

/-- C1: whatever the store, the limit, the offset and the search term, the data of the
response holds no record carrying the identifier of a ship that no position report
shares its vessel identifier with. -/
theorem activeShips_omits_ships_without_reports (re : RegexEngine) (store : Store)
    (query : Query) (now : Int) (resp : Response)
    (h : activeShips re store query now = .ok resp) (s : Ship)
    (h0 : ∀ p ∈ store.positions, p.UserID ≠ s.UserID) (position : PositionReport) :
    ∀ r ∈ resp.data, r.id ≠ (transformShipData s position now).id := by
  intro r hr hid
  obtain ⟨t, -, p, hne, -, -, -, hrec⟩ := mem_data re store query now resp h r hr
  rw [hrec] at hid
  have hu := transformShipData_id_eq t s p position now now hid
  apply hne
  rw [List.filter_eq_nil_iff]
  intro q hq
  rw [hu]
  simpa using h0 q hq

/-- C1 on the sample store: ship A has no report and no record carries its identifier. -/
theorem activeShips_omits_ships_without_reports_witness :
    activeShips exampleEngine exampleStore {} 0 = .ok exampleResponse ∧
      (∀ p ∈ exampleStore.positions, p.UserID ≠ shipA.UserID) ∧
      ∀ r ∈ exampleResponse.data, r.id ≠ (transformShipData shipA {} 0).id :=
  ⟨rfl, by decide,
    activeShips_omits_ships_without_reports exampleEngine exampleStore {} 0 exampleResponse rfl
      shipA (by decide) {}⟩

/-- C2: in a `200` response the data is the transformation of the ships the aggregation
returned; each of them carries exactly the reports of its vessel identifier, and when
it has two or more, the report selected as its latest position is one of them whose
reception timestamp is greater than or equal to that of every report of the ship. -/
theorem latestPosition_most_recent (re : RegexEngine) (store : Store) (query : Query)
    (now : Int) (resp : Response) (h : activeShips re store query now = .ok resp) :
    ∃ ships : List JoinedShip,
      pipeline re store (query.search.getD "") (parseParam query.offset 0)
        (parseParam query.limit 50) = .ok ships ∧
      resp.data = transformedShips ships now ∧
      ∀ d ∈ ships,
        d.positions = store.positions.filter (fun q => q.UserID = d.ship.UserID) ∧
        (2 ≤ d.positions.length →
          ∃ p, d.latestPosition = some p ∧ p ∈ d.positions ∧
            ∀ q ∈ d.positions, bsonLe q.received_timestamp p.received_timestamp = true) := by
  obtain ⟨keep, off, lim, -, -, hoff, hlim, -, hpipe, hdata, -⟩ :=
    activeShips_ok re store query now resp h
  refine ⟨_, by rw [hoff, hlim]; exact hpipe, hdata, ?_⟩
  intro d hd
  obtain ⟨-, hp, hne, hlatest⟩ :=
    mem_addLatestPosition_filter store keep d (List.mem_of_mem_drop (List.mem_of_mem_take hd))
  refine ⟨hp, fun _ => ?_⟩
  obtain ⟨p, hhead, hmem, hmax⟩ := head_sortArray d.positions hne
  exact ⟨p, by rw [hlatest, hhead], hmem, hmax⟩

/-- C2 on the sample store, where ship B has two reports. -/
theorem latestPosition_most_recent_witness :
    activeShips exampleEngine exampleStore {} 0 = .ok exampleResponse ∧
      ∃ ships : List JoinedShip,
        pipeline exampleEngine exampleStore "" (some 0) (some 50) = .ok ships ∧
        exampleResponse.data = transformedShips ships 0 ∧
        ∀ d ∈ ships,
          d.positions = exampleStore.positions.filter (fun q => q.UserID = d.ship.UserID) ∧
          (2 ≤ d.positions.length →
            ∃ p, d.latestPosition = some p ∧ p ∈ d.positions ∧
              ∀ q ∈ d.positions, bsonLe q.received_timestamp p.received_timestamp = true) :=
  ⟨rfl, latestPosition_most_recent exampleEngine exampleStore {} 0 exampleResponse rfl⟩

/-- C3, as stated, fails: with one ship whose only report has no coordinates, the default
request (offset 0, limit 50) answers `total` 1 with no record in `data`. -/
theorem total_counterexample :
    ¬ ∀ (re : RegexEngine) (store : Store) (query unpaged : Query) (now : Int)
        (resp all : Response),
        activeShips re store query now = .ok resp →
        unpaged.search = query.search → parseParam unpaged.offset 0 = some 0 →
        (∃ lim, parseParam unpaged.limit 50 = some lim ∧ (resp.pagination.total : Int) ≤ lim) →
        activeShips re store unpaged now = .ok all →
        resp.pagination.total = all.data.length := by
  intro hall
  have hrun : activeShips (fun _ => none)
      { ships := [{ UserID := some 1 }], positions := [{ UserID := some 1 }] } {} 0 =
      .ok { success := true, data := [],
            pagination := { total := 1, limit := 50, offset := 0, hasMore := true },
            timestamp := 0 } := by
    rfl
  have := hall _ _ _ _ _ _ _ hrun rfl rfl ⟨50, rfl, by decide⟩ hrun
  revert this
  decide

/-- C3, amended: `total` is the number of ships the aggregation returns for the same search
term with offset 0 and a limit of at least `total`; the `data` of that request holds the
records of those among them whose latest position has a non-zero latitude and longitude,
so `total` is the number of `data` records when all of them have. -/
theorem total_eq_unpaged_ships (re : RegexEngine) (store : Store) (query unpaged : Query)
    (now : Int) (resp all : Response) (lim : Int)
    (h : activeShips re store query now = .ok resp)
    (hs : unpaged.search = query.search) (ho : parseParam unpaged.offset 0 = some 0)
    (hl : parseParam unpaged.limit 50 = some lim)
    (hle : (resp.pagination.total : Int) ≤ lim)
    (hu : activeShips re store unpaged now = .ok all) :
    ∃ ships : List JoinedShip,
      pipeline re store (unpaged.search.getD "") (some 0) (some lim) = .ok ships ∧
      all.data = transformedShips ships now ∧
      resp.pagination.total = ships.length ∧
      all.data.length = (ships.filter hasCoordinates).length ∧
      ((∀ d ∈ ships, hasCoordinates d = true) → resp.pagination.total = all.data.length) := by
  obtain ⟨keep, -, -, -, -, -, -, hkeep, -, -, htotal, -⟩ :=
    activeShips_ok re store query now resp h
  obtain ⟨keep2, off2, lim2, -, -, hoff2, hlim2, hkeep2, hpipe2, hdata2, -⟩ :=
    activeShips_ok re store unpaged now all hu
  rw [ho] at hoff2
  rw [hl] at hlim2
  injection hoff2 with hoff2
  injection hlim2 with hlim2
  subst hoff2 hlim2
  have hsame : (matchHasPositions (lookup store.positions store.ships)).filter
      (fun d => keep2 d.ship) =
      (matchHasPositions (lookup store.positions store.ships)).filter
        (fun d => keep d.ship) := by
    have h1 := hkeep2 (matchHasPositions (lookup store.positions store.ships))
    rw [hs, hkeep] at h1
    injection h1 with h1
    exact h1.symm
  rw [hsame] at hpipe2 hdata2
  have hlen : (List.take lim.toNat (List.drop (0 : Int).toNat (addLatestPosition
      ((matchHasPositions (lookup store.positions store.ships)).filter
        (fun d => keep d.ship))))).length = resp.pagination.total := by
    rw [htotal] at hle ⊢
    simp only [Int.toNat_zero, List.drop_zero, List.length_take, addLatestPosition,
      List.length_map]
    omega
  refine ⟨_, hpipe2, hdata2, hlen.symm, ?_, ?_⟩
  · rw [hdata2, length_transformedShips]
  · intro hcoord
    rw [hdata2, length_transformedShips, List.filter_eq_self.mpr hcoord, hlen]

/-- C3, amended, on the sample store: the request with offset 2 against the default one. -/
theorem total_eq_unpaged_ships_witness :
    activeShips exampleEngine exampleStore { offset := some "2" } 0 = .ok examplePastEnd ∧
      activeShips exampleEngine exampleStore {} 0 = .ok exampleResponse ∧
      (examplePastEnd.pagination.total : Int) ≤ 50 ∧
      ∃ ships : List JoinedShip,
        pipeline exampleEngine exampleStore "" (some 0) (some 50) = .ok ships ∧
        exampleResponse.data = transformedShips ships 0 ∧
        examplePastEnd.pagination.total = ships.length ∧
        exampleResponse.data.length = (ships.filter hasCoordinates).length ∧
        ((∀ d ∈ ships, hasCoordinates d = true) →
          examplePastEnd.pagination.total = exampleResponse.data.length) :=
  ⟨rfl, rfl, by decide,
    total_eq_unpaged_ships exampleEngine exampleStore { offset := some "2" } {} 0
      examplePastEnd exampleResponse 50 rfl rfl rfl rfl (by decide) rfl⟩

/-- C4: in a `200` response whose offset is greater than or equal to its `total`, the
`data` page is empty and `hasMore` is false. -/
theorem offset_beyond_total (re : RegexEngine) (store : Store) (query : Query) (now : Int)
    (resp : Response) (h : activeShips re store query now = .ok resp)
    (hoff : (resp.pagination.total : Int) ≤ resp.pagination.offset) :
    resp.data = [] ∧ resp.pagination.hasMore = false := by
  obtain ⟨keep, off, lim, hoff0, -, -, -, -, -, hdata, htotal, hoffset, -, hmore⟩ :=
    activeShips_ok re store query now resp h
  have hempty : resp.data = [] := by
    rw [hdata]
    have hdrop : List.drop off.toNat (addLatestPosition
        ((matchHasPositions (lookup store.positions store.ships)).filter
          (fun d => keep d.ship))) = [] := by
      apply List.drop_eq_nil_of_le
      rw [hoffset, htotal] at hoff
      simp only [addLatestPosition, List.length_map]
      omega
    rw [hdrop]
    simp [transformedShips]
  refine ⟨hempty, ?_⟩
  rw [hmore, hempty]
  simp only [List.length_nil, Nat.cast_zero, add_zero, decide_eq_false_iff_not, not_lt]
  rw [hoffset] at hoff
  exact hoff

/-- C4 on the sample store: offset 2 with `total` 2. -/
theorem offset_beyond_total_witness :
    activeShips exampleEngine exampleStore { offset := some "2" } 0 = .ok examplePastEnd ∧
      (examplePastEnd.pagination.total : Int) ≤ examplePastEnd.pagination.offset ∧
      examplePastEnd.data = [] ∧ examplePastEnd.pagination.hasMore = false :=
  ⟨rfl, by decide,
    offset_beyond_total exampleEngine exampleStore { offset := some "2" } 0 examplePastEnd rfl
      (by decide)⟩

/-! ## Claims on the transformation layer -/

/-- C5: on a ship and a position report with every optional field absent,
`transformShipData` returns (it is a total function) the record with id "unknown", name
"Unknown Vessel", latitude and longitude 0, direction 0, speed 0 and course 0. -/
theorem transformShipData_all_absent (now : Int) :
    (transformShipData {} {} now).id = "unknown" ∧
      (transformShipData {} {} now).name = "Unknown Vessel" ∧
      (transformShipData {} {} now).location.lat = 0 ∧
      (transformShipData {} {} now).location.lng = 0 ∧
      (transformShipData {} {} now).direction = 0 ∧
      (transformShipData {} {} now).speed = 0 ∧
      (transformShipData {} {} now).course = 0 := by
  simp [transformShipData, orStr, orNum, orElseNum, truthyNum]

/-- C6: `generateLocationName` answers "Singapore Waters" on the box 1.0 ≤ lat ≤ 1.6,
103.0 ≤ lng ≤ 104.5 and, outside that box, "Japanese Waters" on the box 24.0 ≤ lat ≤ 46.0,
122.0 ≤ lng ≤ 146.0, bounds included; (1.3, 103.8) and (35.0, 135.0) are instances. -/
theorem generateLocationName_regions :
    (∀ lat lng : ℚ, 1.0 ≤ lat ∧ lat ≤ 1.6 ∧ 103.0 ≤ lng ∧ lng ≤ 104.5 →
        generateLocationName lat lng = "Singapore Waters") ∧
      (∀ lat lng : ℚ, ¬ (1.0 ≤ lat ∧ lat ≤ 1.6 ∧ 103.0 ≤ lng ∧ lng ≤ 104.5) →
        24.0 ≤ lat ∧ lat ≤ 46.0 ∧ 122.0 ≤ lng ∧ lng ≤ 146.0 →
        generateLocationName lat lng = "Japanese Waters") ∧
      generateLocationName 1.3 103.8 = "Singapore Waters" ∧
      generateLocationName 35.0 135.0 = "Japanese Waters" := by
  refine ⟨?_, ?_, ?_, ?_⟩
  · intro lat lng h
    unfold generateLocationName
    rw [if_pos h]
  · intro lat lng h1 h2
    unfold generateLocationName
    rw [if_neg h1, if_pos h2]
  · norm_num [generateLocationName]
  · norm_num [generateLocationName]

/-- C7: at latitude -10 and longitude 150, outside both boxes, `generateLocationName`
prints the signed latitude, so the label carries a minus sign in front of the hemisphere
letter S; the client-side `formatCoordinates` prints the absolute value there. -/
theorem generateLocationName_southern_latitude :
    generateLocationName (-10) 150 = "-10.0000Â°S, 150.0000Â°E" ∧
      formatCoordinates (-10) 150 = "10.0000°S, 150.0000°E" := by
  constructor
  · norm_num [generateLocationName, toFixed, Math.abs]
    decide
  · norm_num [formatCoordinates, toFixed, Math.abs]
    decide

/-- C8: on a report whose true heading is 0 and whose course over ground is 90,
`transformShipData` gives direction 90: the heading 0 is passed over. -/
theorem transformShipData_direction_heading_zero (ship : Ship) (now : Int) :
    (transformShipData ship { TrueHeading := some 0, Cog := some 90 } now).direction = 90 := by
  norm_num [transformShipData, orNum, orElseNum, truthyNum]

/-- C9, as stated, fails: a ship whose name is present and empty is shown as
"Unknown Vessel". -/
theorem transformShipData_name_counterexample :
    ¬ ∀ (ship : Ship) (position : PositionReport) (now : Int) (n : String),
        ship.Name = some n → (transformShipData ship position now).name = n := by
  intro h
  have := h { Name := some "" } {} 0 "" rfl
  revert this
  simp [transformShipData, orStr]

/-- C9, amended: the id is the decimal string of the vessel identifier whenever the
identifier is present (0 included) and "unknown" exactly when it is absent; the name is
the ship name when present and non-empty, and "Unknown Vessel" otherwise. -/
theorem transformShipData_id_name (ship : Ship) (position : PositionReport) (now : Int) :
    (∀ n : Int, ship.UserID = some n →
        (transformShipData ship position now).id = numberToString n) ∧
      ((transformShipData ship position now).id = "unknown" ↔ ship.UserID = none) ∧
      (∀ n : String, ship.Name = some n → n ≠ "" →
        (transformShipData ship position now).name = n) ∧
      (ship.Name = none ∨ ship.Name = some "" →
        (transformShipData ship position now).name = "Unknown Vessel") := by
  refine ⟨?_, ?_, ?_, ?_⟩
  · intro n hn
    simp [transformShipData, orStr, hn, numberToString_ne_empty]
  · cases hu : ship.UserID with
    | none => simp [transformShipData, orStr, hu]
    | some n => simp [transformShipData, orStr, hu, numberToString_ne_empty, numberToString_ne_unknown]
  · intro n hn hne
    simp [transformShipData, orStr, hn, hne]
  · intro h
    rcases h with h | h <;> simp [transformShipData, orStr, h]

/-- C10, as stated, fails: on a report that carries its own `Timestamp` (30) and no
`received_timestamp`, `transformShipData` at clock value 1000 gives `timeDetected` 1000,
where the worded rule gives 30. -/
theorem transformShipData_timeDetected_counterexample :
    (transformShipData {} { Timestamp := some 30 } 1000).timeDetected = 1000 ∧
      timeDetectedSpec { Timestamp := some 30 } 1000 = 30 := by
  constructor
  · simp [transformShipData]
  · simp [timeDetectedSpec, dateOfNumber]

/-- C10, amended: `timeDetected` is the `received_timestamp` of the report when present
and the current time otherwise; no other field of the report is consulted. -/
theorem transformShipData_timeDetected (ship : Ship) (position : PositionReport) (now : Int) :
    (∀ t : Int, position.received_timestamp = some t →
        (transformShipData ship position now).timeDetected = t) ∧
      (position.received_timestamp = none →
        (transformShipData ship position now).timeDetected = now) := by
  constructor
  · intro t ht
    simp [transformShipData, ht]
  · intro h
    simp [transformShipData, h]

/-! ## Claims on the request parameters of the query -/

/-- C11: the search term is handed to `$regex` as a pattern. For every library in which
the pattern "." compiles and matches the text "B" (a dot stands for any character), the
term "." retains ship B, whose name, its only text field, does not contain a dot; and
for every library in which "(" does not compile, the term "(" makes the request fail. -/
theorem search_term_is_pattern (re : RegexEngine) :
    (∀ m : String → Bool, re "." = some m → m "B" = true →
        activeShips re searchStore { search := some "." } 0 = .ok searchResponse ∧
        includes "B" "." = false ∧ shipB.CallSign = none ∧ shipB.Destination = none) ∧
      (re "(" = none →
        activeShips re searchStore { search := some "(" } 0 =
          .error (exampleFailure "invalid regular expression")) := by
  constructor
  · intro m hre hm
    refine ⟨?_, by decide, rfl, rfl⟩
    have hfound : ∀ docs, searchStage re "." docs = .ok (docs.filter (searchMatches m)) := by
      intro docs
      simp [searchStage, hre]
    have hB : ∀ latest, searchMatches m ⟨shipB, [reportB5], latest⟩ = true := by
      intro latest
      simp [searchMatches, fieldMatches, shipB, hm]
    have hB2 := hB none
    have h1 : addLatestPosition (matchHasPositions
        (lookup searchStore.positions searchStore.ships)) =
        [⟨shipB, [reportB5], some reportB5⟩] := rfl
    have h2 : matchHasPositions (lookup searchStore.positions searchStore.ships) =
        [⟨shipB, [reportB5], none⟩] := rfl
    have hp : pipeline re searchStore "." (some 0) (some 50) =
        .ok [⟨shipB, [reportB5], some reportB5⟩] := by
      unfold pipeline
      rw [h1]
      simp only [hfound, bind, Except.bind, List.filter_cons, hB, if_true, List.filter_nil]
      rfl
    have ht : totalPipeline re searchStore "." = .ok [1] := by
      unfold totalPipeline
      rw [h2]
      simp only [hfound, bind, Except.bind, List.filter_cons, hB2, if_true, List.filter_nil]
      rfl
    unfold activeShips
    have hq1 : parseParam ({ search := some "." } : Query).limit 50 = some 50 := rfl
    have hq2 : parseParam ({ search := some "." } : Query).offset 0 = some 0 := rfl
    have hq3 : ({ search := some "." } : Query).search.getD "" = "." := rfl
    simp only [hq1, hq2, hq3, hp, ht, bind, Except.bind, pure, Except.pure]
    rfl
  · intro hre
    unfold activeShips
    have hq3 : ({ search := some "(" } : Query).search.getD "" = "(" := rfl
    have hp : ∀ o l, pipeline re searchStore "(" o l = .error "invalid regular expression" := by
      intro o l
      simp [pipeline, searchStage, hre, bind, Except.bind]
    simp only [hq3, hp, bind, Except.bind]
    rfl

/-- C11 on the library for the fragment of patterns: the dot is compiled and matches "B",
the parenthesis is refused. -/
theorem search_term_is_pattern_witness :
    fragmentEngine "." = some (fun text => fragmentSearch ".".data text.data) ∧
      fragmentSearch ".".data "B".data = true ∧ fragmentEngine "(" = none ∧
      activeShips fragmentEngine searchStore { search := some "." } 0 = .ok searchResponse ∧
      activeShips fragmentEngine searchStore { search := some "(" } 0 =
        .error (exampleFailure "invalid regular expression") :=
  ⟨rfl, rfl, rfl,
    ((search_term_is_pattern fragmentEngine).1 _ rfl rfl).1,
    (search_term_is_pattern fragmentEngine).2 rfl⟩

/-- C12, as stated, fails: the request with offset "-1" is answered with the `500` body,
and so is the request with the non-numeric limit "abc". -/
theorem limit_offset_counterexample :
    activeShips exampleEngine exampleStore { offset := some "-1" } 0 =
        .error (exampleFailure "invalid $skip") ∧
      activeShips exampleEngine exampleStore { limit := some "abc" } 0 =
        .error (exampleFailure "invalid $limit") :=
  ⟨rfl, rfl⟩

/-- C12, amended: a missing limit or offset is replaced by its default (50, 0); a value
that is present is read by `parseInt` and applied as read. A `200` response has a
positive limit and a non-negative offset; a limit or offset that reads as no number, a
negative offset and a limit below 1 make the request fail with FETCH_SHIPS_ERROR. -/
theorem limit_offset_as_parsed (re : RegexEngine) (store : Store) (query : Query) (now : Int) :
    (query.limit = none → parseParam query.limit 50 = some 50) ∧
      (query.offset = none → parseParam query.offset 0 = some 0) ∧
      (∀ resp, activeShips re store query now = .ok resp →
        parseParam query.limit 50 = some resp.pagination.limit ∧
        parseParam query.offset 0 = some resp.pagination.offset ∧
        1 ≤ resp.pagination.limit ∧ 0 ≤ resp.pagination.offset) ∧
      ((parseParam query.offset 0 = none ∨ (∃ k, parseParam query.offset 0 = some k ∧ k < 0) ∨
          parseParam query.limit 50 = none ∨ (∃ k, parseParam query.limit 50 = some k ∧ k < 1)) →
        ∃ e, activeShips re store query now = .error e ∧ e.error = "FETCH_SHIPS_ERROR") := by
  refine ⟨?_, ?_, ?_, ?_⟩
  · intro h; rw [h]; rfl
  · intro h; rw [h]; rfl
  · intro resp h
    obtain ⟨keep, off, lim, hoff0, hlim1, hoff, hlim, -, -, -, -, hoffset, hlimit, -⟩ :=
      activeShips_ok re store query now resp h
    rw [hoffset, hlimit]
    exact ⟨hlim, hoff, hlim1, hoff0⟩
  · intro hbad
    cases hrun : activeShips re store query now with
    | error e =>
      refine ⟨e, rfl, ?_⟩
      unfold activeShips at hrun
      simp only [] at hrun
      split at hrun
      · cases hrun
      · injection hrun with hrun
        rw [← hrun]
    | ok resp =>
      exfalso
      obtain ⟨keep, off, lim, hoff0, hlim1, hoff, hlim, -⟩ :=
        activeShips_ok re store query now resp hrun
      rcases hbad with h | ⟨k, hk, hneg⟩ | h | ⟨k, hk, hneg⟩
      · rw [hoff] at h; cases h
      · rw [hoff] at hk; injection hk with hk; omega
      · rw [hlim] at h; cases h
      · rw [hlim] at hk; injection hk with hk; omega

/-! ## Claims on the API client -/

theorem isStr_iff (v : Json) (s : String) : Json.isStr (some v) s = true ↔ v = .str s := by
  cases v <;> simp [Json.isStr]

/-- C14, as stated, fails: an error whose code is TIMEOUT_ERROR and whose status is 0 is
classified `disconnected`. -/
theorem getConnectionStatus_timeout_counterexample :
    ¬ ∀ e : ApiError, e.code = .str "TIMEOUT_ERROR" →
        getConnectionStatus (some (.apiError e)) = "timeout" := by
  intro h
  have := h { message := .str "Request timed out", status := 0, code := .str "TIMEOUT_ERROR" } rfl
  revert this
  decide

/-- C14, amended: an error whose code is TIMEOUT_ERROR is classified `timeout` whenever
its status is not 0, and `disconnected` when its status is 0, the test of which comes
first. -/
theorem getConnectionStatus_timeout (e : ApiError) (hcode : e.code = .str "TIMEOUT_ERROR") :
    (e.status ≠ 0 → getConnectionStatus (some (.apiError e)) = "timeout") ∧
      (e.status = 0 → getConnectionStatus (some (.apiError e)) = "disconnected") := by
  constructor
  · intro hs
    simp [getConnectionStatus, Thrown.code, Thrown.status, hcode, Json.isStr, hs]
  · intro hs
    simp [getConnectionStatus, Thrown.code, Thrown.status, hs]

/-- C14, amended, on the error `fetchActiveShips` builds for a timeout. -/
theorem getConnectionStatus_timeout_witness :
    (((408 : Int) ≠ 0 →
        getConnectionStatus (some (.apiError
          { message := .str "Request timed out", status := 408, code := .str "TIMEOUT_ERROR" })) =
          "timeout") ∧
      ((408 : Int) = 0 →
        getConnectionStatus (some (.apiError
          { message := .str "Request timed out", status := 408, code := .str "TIMEOUT_ERROR" })) =
          "disconnected")) :=
  getConnectionStatus_timeout
    { message := .str "Request timed out", status := 408, code := .str "TIMEOUT_ERROR" } rfl

/-- C15: an error whose code is neither CONNECTION_ERROR nor TIMEOUT_ERROR and whose
status is neither 0 nor 408 is classified `server_error` when its status is at least 500
and `error` otherwise; no error is classified `connected`. -/
theorem getConnectionStatus_http (e : ApiError) (hc : e.code ≠ .str "CONNECTION_ERROR")
    (ht : e.code ≠ .str "TIMEOUT_ERROR") (h0 : e.status ≠ 0) (h408 : e.status ≠ 408) :
    (e.status ≥ 500 → getConnectionStatus (some (.apiError e)) = "server_error") ∧
      (¬ e.status ≥ 500 → getConnectionStatus (some (.apiError e)) = "error") ∧
      getConnectionStatus none = "connected" := by
  have hc2 : Json.isStr (some e.code) "CONNECTION_ERROR" = false := by
    rw [Bool.eq_false_iff]
    exact fun h => hc ((isStr_iff _ _).mp h)
  have ht2 : Json.isStr (some e.code) "TIMEOUT_ERROR" = false := by
    rw [Bool.eq_false_iff]
    exact fun h => ht ((isStr_iff _ _).mp h)
  refine ⟨?_, ?_, rfl⟩
  · intro hs
    simp [getConnectionStatus, Thrown.code, Thrown.status, hc2, ht2, h0, h408, hs]
  · intro hs
    simp [getConnectionStatus, Thrown.code, Thrown.status, hc2, ht2, h0, h408, hs]

/-- C15 on the error built from a `500` response of the active-ships handler. -/
theorem getConnectionStatus_http_witness :
    ((500 : Int) ≥ 500 →
        getConnectionStatus (some (.apiError
          { message := .str "Failed to fetch ship data", status := 500,
            code := .str "FETCH_SHIPS_ERROR" })) = "server_error") ∧
      (¬ (500 : Int) ≥ 500 →
        getConnectionStatus (some (.apiError
          { message := .str "Failed to fetch ship data", status := 500,
            code := .str "FETCH_SHIPS_ERROR" })) = "error") ∧
      getConnectionStatus none = "connected" :=
  getConnectionStatus_http
    { message := .str "Failed to fetch ship data", status := 500,
      code := .str "FETCH_SHIPS_ERROR" }
    (by simp) (by simp) (by decide) (by decide)

/-- C16: on a `500` response whose body is the JSON text `null`, `handleResponse` fails
with the `TypeError` of reading `message` off `null`, not with an `ApiError`; the same
response with an empty object as its body gives the `ApiError` of status 500 and code
UNKNOWN_ERROR. -/
theorem handleResponse_null_body :
    handleResponse { status := 500, json := .ok .null } = .error nullReadError ∧
      handleResponse { status := 500, json := .ok (.obj []) } =
        .error (.apiError
          { message := .str "HTTP error! status: 500", status := 500,
            code := .str "UNKNOWN_ERROR" }) :=
  ⟨rfl, rfl⟩

/-- C17, as stated, fails: a `TypeError` of `fetch` with the message "Load failed" is
thrown on unchanged, and is classified `error`. -/
theorem fetchActiveShips_connection_counterexample :
    ¬ ∀ message : String,
        fetchActiveShips (.error (.native "TypeError" message)) =
          .error (.apiError
            { message := .str "Unable to connect to server", status := 0,
              code := .str "CONNECTION_ERROR" }) := by
  intro h
  have h1 := h "Load failed"
  have h2 : fetchActiveShips (.error (.native "TypeError" "Load failed")) =
      .error (.native "TypeError" "Load failed") := rfl
  rw [h2] at h1
  cases h1

/-- C17, amended: a `TypeError` of `fetch` whose message contains "fetch" makes
`fetchActiveShips` fail with the `ApiError` of code CONNECTION_ERROR and status 0, which
is classified `disconnected`; a `TypeError` with any other message is thrown on
unchanged and is classified `error`. -/
theorem fetchActiveShips_connection (message : String) :
    (includes message "fetch" = true →
        fetchActiveShips (.error (.native "TypeError" message)) =
          .error (.apiError
            { message := .str "Unable to connect to server", status := 0,
              code := .str "CONNECTION_ERROR" }) ∧
        getConnectionStatus (some (.apiError
            { message := .str "Unable to connect to server", status := 0,
              code := .str "CONNECTION_ERROR" })) = "disconnected") ∧
      (includes message "fetch" = false →
        fetchActiveShips (.error (.native "TypeError" message)) =
          .error (.native "TypeError" message) ∧
        getConnectionStatus (some (.native "TypeError" message)) = "error") := by
  constructor
  · intro h
    refine ⟨?_, rfl⟩
    simp [fetchActiveShips, bind, Except.bind, Thrown.name, h]
  · intro h
    refine ⟨?_, rfl⟩
    simp [fetchActiveShips, bind, Except.bind, Thrown.name, h]

/-! ## Stable sorting by a key -/

theorem insertionSort_congr {α : Type} (r s : α → α → Prop) [DecidableRel r] [DecidableRel s]
    (h : ∀ a b, r a b ↔ s a b) (l : List α) : l.insertionSort r = l.insertionSort s := by
  have hins : ∀ (a : α) (t : List α), t.orderedInsert r a = t.orderedInsert s a := by
    intro a t
    induction t with
    | nil => rfl
    | cons b t ih =>
      simp only [List.orderedInsert]
      by_cases hab : r a b
      · rw [if_pos hab, if_pos ((h a b).mp hab)]
      · rw [if_neg hab, if_neg (fun hs => hab ((h a b).mpr hs)), ih]
  induction l with
  | nil => rfl
  | cons a l ih => simp only [List.insertionSort, ih, hins]

/-- Inserting into a list leaves the records of each key in their order, as long as the
relation holds between records of equal key. -/
theorem filter_orderedInsert {α κ : Type} [DecidableEq κ] (f : α → κ) (r : α → α → Prop)
    [DecidableRel r] (hr : ∀ a b, f a = f b → r a b) (k : κ) (a : α) (l : List α) :
    (l.orderedInsert r a).filter (fun x => f x = k) = (a :: l).filter (fun x => f x = k) := by
  induction l with
  | nil => rfl
  | cons b l ih =>
    simp only [List.orderedInsert]
    by_cases hab : r a b
    · rw [if_pos hab]
    · rw [if_neg hab]
      have hne : f a ≠ f b := fun h => hab (hr a b h)
      rw [List.filter_cons, ih]
      by_cases hak : f a = k
      · have hbk : ¬ f b = k := fun h => hne (hak.trans h.symm)
        simp [List.filter_cons, hak, hbk]
      · simp [List.filter_cons, hak]

/-- A stable sort: the records of each key keep the order they have in the input. -/
theorem filter_insertionSort {α κ : Type} [DecidableEq κ] (f : α → κ) (r : α → α → Prop)
    [DecidableRel r] (hr : ∀ a b, f a = f b → r a b) (k : κ) (l : List α) :
    (l.insertionSort r).filter (fun x => f x = k) = l.filter (fun x => f x = k) := by
  induction l with
  | nil => rfl
  | cons a l ih =>
    simp only [List.insertionSort]
    rw [filter_orderedInsert f r hr, List.filter_cons, List.filter_cons, ih]

/-- Two lists sorted by decreasing key in which the records of each key come in the same
order are equal. -/
theorem eq_of_sorted_of_filter_eq {α κ : Type} [LinearOrder κ] (f : α → κ) :
    ∀ l₁ l₂ : List α, l₁.Sorted (fun a b => f b ≤ f a) → l₂.Sorted (fun a b => f b ≤ f a) →
      (∀ k, l₁.filter (fun x => f x = k) = l₂.filter (fun x => f x = k)) → l₁ = l₂ := by
  intro l₁
  induction l₁ with
  | nil =>
    intro l₂ _ _ h
    cases l₂ with
    | nil => rfl
    | cons b t =>
      have := h (f b)
      simp [List.filter_cons] at this
  | cons a t₁ ih =>
    intro l₂ h₁ h₂ h
    cases l₂ with
    | nil =>
      have := h (f a)
      simp [List.filter_cons] at this
    | cons b t₂ =>
      have hb : b ∈ a :: t₁ := by
        have hmem : b ∈ (b :: t₂).filter (fun x => f x = f b) := by simp
        rw [← h (f b)] at hmem
        exact (List.mem_filter.mp hmem).1
      have ha : a ∈ b :: t₂ := by
        have hmem : a ∈ (a :: t₁).filter (fun x => f x = f a) := by simp
        rw [h (f a)] at hmem
        exact (List.mem_filter.mp hmem).1
      have hba : f b ≤ f a := by
        rcases List.mem_cons.mp hb with rfl | hb
        · exact le_refl _
        · exact List.rel_of_sorted_cons h₁ b hb
      have hab : f a ≤ f b := by
        rcases List.mem_cons.mp ha with rfl | ha
        · exact le_refl _
        · exact List.rel_of_sorted_cons h₂ a ha
      have hk : f a = f b := le_antisymm hab hba
      have hhead := h (f a)
      simp only [List.filter_cons, hk, decide_True, if_true] at hhead
      injection hhead with h1 h2
      subst h1
      congr 1
      apply ih t₂ h₁.of_cons h₂.of_cons
      intro k
      by_cases hak : f a = k
      · subst hak
        simpa using h2
      · have := h k
        simpa [List.filter_cons, hak] using this

theorem filter_eq_nil_of_forall_ne {α κ : Type} [DecidableEq κ] (f : α → κ) (k : κ) (l : List α)
    (h : ∀ x ∈ l, f x ≠ k) : l.filter (fun x => f x = k) = [] := by
  rw [List.filter_eq_nil_iff]
  intro x hx
  simpa using h x hx

/-- On a list sorted by increasing key, `reverseGroupsAux` with enough fuel returns a list
sorted by decreasing key in which the records of each key keep their order. -/
theorem reverseGroupsAux_spec {α κ : Type} [LinearOrder κ] (f : α → κ) :
    ∀ (n : Nat) (l : List α), l.length ≤ n → l.Sorted (fun a b => f a ≤ f b) →
      (reverseGroupsAux f n l).Sorted (fun a b => f b ≤ f a) ∧
      ∀ k, (reverseGroupsAux f n l).filter (fun x => f x = k) =
        l.filter (fun x => f x = k) := by
  intro n
  induction n with
  | zero =>
    intro l hl _
    have : l = [] := List.length_eq_zero.mp (Nat.le_zero.mp hl)
    subst this
    exact ⟨List.sorted_nil, fun _ => rfl⟩
  | succ n ih =>
    intro l hl hs
    cases l with
    | nil => exact ⟨List.sorted_nil, fun _ => rfl⟩
    | cons a t =>
      have hsplit : t.takeWhile (fun b => f b = f a) ++ t.dropWhile (fun b => f b = f a) = t :=
        List.takeWhile_append_dropWhile _ t
      have hT : ∀ x ∈ t.takeWhile (fun b => f b = f a), f x = f a := by
        intro x hx
        simpa using List.mem_takeWhile_imp hx
      have hDsub : (t.dropWhile (fun b => f b = f a)).Sublist t :=
        (List.dropWhile_suffix _).sublist
      have hDsorted : (t.dropWhile (fun b => f b = f a)).Sorted (fun a b => f a ≤ f b) :=
        hs.of_cons.sublist hDsub
      have hDlen : (t.dropWhile (fun b => f b = f a)).length ≤ n := by
        have := hDsub.length_le
        simp only [List.length_cons] at hl
        omega
      have hD : ∀ x ∈ t.dropWhile (fun b => f b = f a), f a < f x := by
        intro x hx
        cases hd : t.dropWhile (fun b => f b = f a) with
        | nil => rw [hd] at hx; cases hx
        | cons d rest =>
          have hnot : ¬ f d = f a := by
            have := List.head_dropWhile_not (fun b => decide (f b = f a)) t
              (by rw [hd]; exact List.cons_ne_nil _ _)
            simp only [hd, List.head_cons] at this
            simpa using this
          have hdmem : d ∈ t := hDsub.subset (by rw [hd]; exact List.mem_cons_self _ _)
          have had : f a < f d :=
            lt_of_le_of_ne (List.rel_of_sorted_cons hs d hdmem) (fun h => hnot h.symm)
          rw [hd] at hx hDsorted
          rcases List.mem_cons.mp hx with rfl | hx
          · exact had
          · exact lt_of_lt_of_le had (List.rel_of_sorted_cons hDsorted x hx)
      obtain ⟨ihs, ihf⟩ := ih _ hDlen hDsorted
      have hmem : ∀ x ∈ reverseGroupsAux f n (t.dropWhile (fun b => f b = f a)),
          x ∈ t.dropWhile (fun b => f b = f a) := by
        intro x hx
        have h1 : x ∈ (reverseGroupsAux f n (t.dropWhile (fun b => f b = f a))).filter
            (fun y => f y = f x) := by simp [hx]
        rw [ihf] at h1
        exact (List.mem_filter.mp h1).1
      constructor
      · show List.Sorted _ (reverseGroupsAux f n (t.dropWhile (fun b => f b = f a)) ++
          a :: t.takeWhile (fun b => f b = f a))
        unfold List.Sorted
        rw [List.pairwise_append]
        refine ⟨ihs, ?_, ?_⟩
        · rw [List.pairwise_cons]
          constructor
          · intro y hy
            exact le_of_eq (hT y hy)
          · rw [List.pairwise_iff_forall_sublist]
            intro x y hxy
            have hx := hT x (hxy.subset (List.mem_cons_self _ _))
            have hy := hT y (hxy.subset (List.mem_cons_of_mem _ (List.mem_singleton_self _)))
            rw [hx, hy]
        · intro x hx y hy
          have hxa := hD x (hmem x hx)
          have hya : f y = f a := by
            rcases List.mem_cons.mp hy with rfl | hy
            · rfl
            · exact hT y hy
          rw [hya]
          exact le_of_lt hxa
      · intro k
        show List.filter _ (reverseGroupsAux f n (t.dropWhile (fun b => f b = f a)) ++
          a :: t.takeWhile (fun b => f b = f a)) = _
        rw [List.filter_append, ihf]
        conv_rhs => rw [← hsplit, ← List.cons_append, List.filter_append]
        by_cases hk : k = f a
        · subst hk
          rw [filter_eq_nil_of_forall_ne f (f a) _ (fun x hx => ne_of_gt (hD x hx))]
          simp
        · have : (a :: t.takeWhile (fun b => f b = f a)).filter (fun x => f x = k) = [] := by
            apply filter_eq_nil_of_forall_ne
            intro x hx
            rcases List.mem_cons.mp hx with rfl | hx
            · exact fun h => hk h.symm
            · rw [hT x hx]; exact fun h => hk h.symm
          rw [this]
          simp

/-- The groups depend on the key only through which records it tells apart. -/
theorem reverseGroups_congr {α κ κ₂ : Type} [i₁ : DecidableEq κ] [i₂ : DecidableEq κ₂]
    (f : α → κ) (g : α → κ₂) (h : ∀ a b, f a = f b ↔ g a = g b) (l : List α) :
    reverseGroups f l = reverseGroups g l := by
  have hp : ∀ a : α, (fun b => decide (f b = f a)) = (fun b => decide (g b = g a)) := by
    intro a
    funext b
    by_cases hb : f b = f a
    · simp [hb, (h b a).mp hb]
    · have hg : ¬ g b = g a := fun hg => hb ((h b a).mpr hg)
      simp [hb, hg]
  have haux : ∀ (n : Nat) (t : List α), reverseGroupsAux f n t = reverseGroupsAux g n t := by
    intro n
    induction n with
    | zero => intro t; rfl
    | succ n ih =>
      intro t
      cases t with
      | nil => rfl
      | cons a t =>
        simp only [reverseGroupsAux]
        rw [hp a, ih]
  exact haux _ l

/-- Sorting by decreasing key gives the list sorted by increasing key with the order of
its groups of equal key reversed and the order inside each group unchanged. -/
theorem insertionSort_desc_eq_reverseGroups_aux {α κ : Type} [LinearOrder κ] (f : α → κ)
    (l : List α) :
    l.insertionSort (fun a b => f b ≤ f a) =
      reverseGroups f (l.insertionSort (fun a b => f a ≤ f b)) := by
  haveI : IsTotal α (fun a b => f b ≤ f a) := ⟨fun a b => le_total (f b) (f a)⟩
  haveI : IsTrans α (fun a b => f b ≤ f a) := ⟨fun _ _ _ hab hbc => le_trans hbc hab⟩
  haveI : IsTotal α (fun a b => f a ≤ f b) := ⟨fun a b => le_total (f a) (f b)⟩
  haveI : IsTrans α (fun a b => f a ≤ f b) := ⟨fun _ _ _ hab hbc => le_trans hab hbc⟩
  obtain ⟨hs, hf⟩ := reverseGroupsAux_spec f (l.insertionSort (fun a b => f a ≤ f b)).length
    (l.insertionSort (fun a b => f a ≤ f b)) (le_refl _) (List.sorted_insertionSort _ l)
  apply eq_of_sorted_of_filter_eq f _ _ (List.sorted_insertionSort _ l) hs
  intro k
  rw [hf, filter_insertionSort f _ (fun a b h => le_of_eq h.symm),
    filter_insertionSort f _ (fun a b h => le_of_eq h)]


/-- The same, whichever decision procedure for the equality of keys forms the groups. -/
theorem insertionSort_desc_eq_reverseGroups {α κ : Type} [LinearOrder κ] (i : DecidableEq κ)
    (f : α → κ) (l : List α) :
    l.insertionSort (fun a b => f b ≤ f a) =
      @reverseGroups α κ i f (l.insertionSort (fun a b => f a ≤ f b)) := by
  have h := insertionSort_desc_eq_reverseGroups_aux f l
  convert h

/-! ## The comparators -/

/-- For each sort key the comparator of `CurrentViolations` compares a value in a linear
order. -/
theorem valueLt_key (key : String) :
    ∃ (κ : Type) (_ : LinearOrder κ) (g : ClientRecord → κ),
      ∀ a b, valueLt key a b = decide (g a < g b) := by
  unfold valueLt
  by_cases h1 : key = "timeDetected"
  · exact ⟨Int, inferInstance, fun r => r.timeDetected.ms, fun a b => by simp [h1]⟩
  by_cases h2 : key = "id"
  · exact ⟨List Nat, inferInstance, fun r => codeUnits r.id, fun a b => by simp [h1, h2]⟩
  by_cases h3 : key = "name"
  · exact ⟨List Nat, inferInstance, fun r => codeUnits r.name, fun a b => by simp [h1, h2, h3]⟩
  by_cases h4 : key = "direction"
  · exact ⟨ℚ, inferInstance, fun r => r.direction, fun a b => by simp [h1, h2, h3, h4]⟩
  by_cases h5 : key = "speed"
  · exact ⟨ℚ, inferInstance, fun r => r.speed, fun a b => by simp [h1, h2, h3, h4, h5]⟩
  by_cases h6 : key = "course"
  · exact ⟨ℚ, inferInstance, fun r => r.course, fun a b => by simp [h1, h2, h3, h4, h5, h6]⟩
  · exact ⟨Unit, inferInstance, fun _ => (), fun a b => by simp [h1, h2, h3, h4, h5, h6]⟩

/-- The same for the comparator of `sortedShips`. -/
theorem listValueLt_key (toLowerCase : String → String) (key : String) :
    ∃ (κ : Type) (_ : LinearOrder κ) (g : ClientRecord → κ),
      ∀ a b, listValueLt toLowerCase key a b = decide (g a < g b) := by
  unfold listValueLt
  by_cases h1 : key = "timeDetected"
  · exact ⟨Int, inferInstance, fun r => r.timeDetected.ms, fun a b => by simp [h1]⟩
  by_cases h2 : key = "name"
  · exact ⟨List Nat, inferInstance, fun r => codeUnits (toLowerCase r.name),
      fun a b => by simp [h1, h2]⟩
  by_cases h3 : key = "violation"
  · exact ⟨List Nat, inferInstance, fun r => codeUnits (toLowerCase r.violation.label),
      fun a b => by simp [h1, h2, h3]⟩
  by_cases h4 : key = "id"
  · exact ⟨List Nat, inferInstance, fun r => codeUnits r.id,
      fun a b => by simp [h1, h2, h3, h4]⟩
  by_cases h5 : key = "direction"
  · exact ⟨ℚ, inferInstance, fun r => r.direction, fun a b => by simp [h1, h2, h3, h4, h5]⟩
  by_cases h6 : key = "speed"
  · exact ⟨ℚ, inferInstance, fun r => r.speed, fun a b => by simp [h1, h2, h3, h4, h5, h6]⟩
  by_cases h7 : key = "course"
  · exact ⟨ℚ, inferInstance, fun r => r.course,
      fun a b => by simp [h1, h2, h3, h4, h5, h6, h7]⟩
  · exact ⟨Unit, inferInstance, fun _ => (), fun a b => by simp [h1, h2, h3, h4, h5, h6, h7]⟩

/-- A comparator built from a strict comparison of keys answers at most 0 exactly when
the first key is not above the second (ascending) or not below it (any other
direction). -/
theorem comparator_le_iff {κ : Type} [LinearOrder κ] (x y : κ) (direction : String) :
    ((if decide (x < y) = true then (if direction = "asc" then (-1 : Int) else 1)
      else if decide (y < x) = true then (if direction = "asc" then (1 : Int) else -1)
      else 0) ≤ 0) ↔ (if direction = "asc" then x ≤ y else y ≤ x) := by
  by_cases hd : direction = "asc"
  · rcases lt_trichotomy x y with h | h | h
    · simp [hd, h, le_of_lt h]
    · simp [hd, h]
    · simp [hd, h, not_lt_of_gt h, not_le_of_gt h]
  · rcases lt_trichotomy x y with h | h | h
    · simp [hd, h, not_le_of_gt h]
    · simp [hd, h]
    · simp [hd, h, not_lt_of_gt h, le_of_lt h]

/-- The relation the sort of `CurrentViolations` orders by is the order of a key. -/
theorem compareShips_le (sortConfig : SortConfig) :
    ∃ (κ : Type) (_ : LinearOrder κ) (g : ClientRecord → κ),
      ∀ a b, compareShips sortConfig a b ≤ 0 ↔ g a ≤ g b := by
  obtain ⟨κ, inst, g, hg⟩ := valueLt_key sortConfig.key
  by_cases hd : sortConfig.direction = "asc"
  · refine ⟨κ, inst, g, fun a b => ?_⟩
    unfold compareShips
    rw [hg a b, hg b a, comparator_le_iff, if_pos hd]
  · refine ⟨κᵒᵈ, inferInstance, fun r => OrderDual.toDual (g r), fun a b => ?_⟩
    unfold compareShips
    rw [hg a b, hg b a, comparator_le_iff, if_neg hd]
    rfl

/-- The relation `sortedShips` orders by is the order of a key. -/
theorem compareListShips_le (toLowerCase : String → String) (sortConfig : SortConfig) :
    ∃ (κ : Type) (_ : LinearOrder κ) (g : ClientRecord → κ),
      ∀ a b, compareListShips toLowerCase sortConfig a b ≤ 0 ↔ g a ≤ g b := by
  by_cases hk : sortConfig.key = ""
  · exact ⟨Unit, inferInstance, fun _ => (), fun a b => by simp [compareListShips, hk]⟩
  obtain ⟨κ, inst, g, hg⟩ := listValueLt_key toLowerCase sortConfig.key
  by_cases hd : sortConfig.direction = "asc"
  · refine ⟨κ, inst, g, fun a b => ?_⟩
    unfold compareListShips
    rw [if_neg hk, hg a b, hg b a, comparator_le_iff, if_pos hd]
  · refine ⟨κᵒᵈ, inferInstance, fun r => OrderDual.toDual (g r), fun a b => ?_⟩
    unfold compareListShips
    rw [if_neg hk, hg a b, hg b a, comparator_le_iff, if_neg hd]
    rfl

/-- Sorting by a key a list that the same sort produced returns it unchanged. -/
theorem insertionSort_idem {α κ : Type} [LinearOrder κ] (g : α → κ) (r : α → α → Prop)
    [DecidableRel r] (hr : ∀ a b, r a b ↔ g a ≤ g b) (l : List α) :
    (l.insertionSort r).insertionSort r = l.insertionSort r := by
  haveI : IsTotal α (fun a b => g a ≤ g b) := ⟨fun a b => le_total (g a) (g b)⟩
  haveI : IsTrans α (fun a b => g a ≤ g b) := ⟨fun _ _ _ hab hbc => le_trans hab hbc⟩
  rw [insertionSort_congr r _ hr l, insertionSort_congr r _ hr]
  exact (List.sorted_insertionSort _ l).insertionSort_eq

/-! ## Code units -/

theorem char_toNat_valid (c : Char) :
    c.toNat < 0xD800 ∨ (0xDFFF < c.toNat ∧ c.toNat < 0x110000) := by
  have h := c.valid
  simpa [UInt32.isValidChar, Nat.isValidChar, Char.toNat] using h

theorem char_eq_of_toNat_eq (c d : Char) (h : c.toNat = d.toNat) : c = d := by
  apply Char.ext
  apply UInt32.ext
  simpa [Char.toNat] using h

theorem utf16_append_inj (c d : Char) (x y : List Nat) (h : utf16 c ++ x = utf16 d ++ y) :
    c = d ∧ x = y := by
  have hc := char_toNat_valid c
  have hd := char_toNat_valid d
  unfold utf16 at h
  by_cases h1 : c.toNat < 0x10000 <;> by_cases h2 : d.toNat < 0x10000 <;>
    simp only [h1, h2, if_true, if_false, List.cons_append, List.nil_append, List.cons.injEq] at h
  · exact ⟨char_eq_of_toNat_eq c d h.1, h.2⟩
  · exfalso; omega
  · exfalso; omega
  · exact ⟨char_eq_of_toNat_eq c d (by omega), h.2.2⟩

/-- Two strings with the same code units are the same string. -/
theorem codeUnits_injective (s t : String) (h : codeUnits s = codeUnits t) : s = t := by
  have hl : ∀ a b : List Char, a.flatMap utf16 = b.flatMap utf16 → a = b := by
    intro a
    induction a with
    | nil =>
      intro b hb
      cases b with
      | nil => rfl
      | cons d b =>
        exfalso
        simp only [List.flatMap_nil, List.flatMap_cons] at hb
        unfold utf16 at hb
        split at hb <;> simp at hb
    | cons c a ih =>
      intro b hb
      cases b with
      | nil =>
        exfalso
        simp only [List.flatMap_nil, List.flatMap_cons] at hb
        unfold utf16 at hb
        split at hb <;> simp at hb
      | cons d b =>
        simp only [List.flatMap_cons] at hb
        obtain ⟨hcd, hrest⟩ := utf16_append_inj c d _ _ hb
        rw [hcd, ih b hrest]
  exact String.ext (hl _ _ h)

/-! ## Claims on the client-side view pipeline -/

/-- The five filter stages are one filter, whose test depends on the search term, the
filters and the clock. -/
theorem filterStages_eq_filter (toLowerCase : String → String) (searchTerm : String)
    (filters : Filters) (now : Int) :
    ∃ q : ClientRecord → Bool, ∀ ships,
      filterStages toLowerCase ships searchTerm filters now = ships.filter q := by
  have h1 : ∃ p : ClientRecord → Bool, ∀ l, applySearch toLowerCase searchTerm l = l.filter p := by
    by_cases h : searchTerm ≠ ""
    · exact ⟨_, fun l => by rw [applySearch, if_pos h]⟩
    · exact ⟨fun _ => true, fun l => by rw [applySearch, if_neg h]; simp⟩
  have h2 : ∃ p : ClientRecord → Bool, ∀ l,
      applyViolationType filters.violationType l = l.filter p := by
    by_cases h : filters.violationType.length > 0
    · exact ⟨_, fun l => by rw [applyViolationType, if_pos h]⟩
    · exact ⟨fun _ => true, fun l => by rw [applyViolationType, if_neg h]; simp⟩
  have h3 : ∃ p : ClientRecord → Bool, ∀ l,
      applyLocation toLowerCase filters.location l = l.filter p := by
    by_cases h : filters.location ≠ ""
    · exact ⟨_, fun l => by rw [applyLocation, if_pos h]⟩
    · exact ⟨fun _ => true, fun l => by rw [applyLocation, if_neg h]; simp⟩
  have h4 : ∃ p : ClientRecord → Bool, ∀ l, applyTimeRange now filters.timeRange l = l.filter p := by
    unfold applyTimeRange
    cases timeRanges filters.timeRange with
    | some window => exact ⟨_, fun l => rfl⟩
    | none =>
      by_cases h : inheritedMembers.contains filters.timeRange = true
      · exact ⟨fun _ => false, fun l => by simp only [h, if_true]⟩
      · exact ⟨fun _ => true, fun l => by simp only [h, if_false]; simp⟩
  have h5 : ∃ p : ClientRecord → Bool, ∀ l, applySeverity filters.severity l = l.filter p := by
    by_cases h : filters.severity ≠ "all"
    · exact ⟨_, fun l => by rw [applySeverity, if_pos h]⟩
    · exact ⟨fun _ => true, fun l => by rw [applySeverity, if_neg h]; simp⟩
  obtain ⟨p1, hp1⟩ := h1
  obtain ⟨p2, hp2⟩ := h2
  obtain ⟨p3, hp3⟩ := h3
  obtain ⟨p4, hp4⟩ := h4
  obtain ⟨p5, hp5⟩ := h5
  refine ⟨fun a => p1 a && (p2 a && (p3 a && (p4 a && p5 a))), fun ships => ?_⟩
  unfold filterStages
  rw [hp1, hp2, hp3, hp4, hp5]
  simp only [List.filter_filter]
  congr 1
  funext a
  simp only [Bool.and_comm, Bool.and_left_comm, Bool.and_assoc]

/-- A key other than `timeDetected` never makes the sort throw. -/
theorem sortStage_name (direction : String) (ships : List ClientRecord) :
    sortStage ⟨"name", direction⟩ ships =
      .ok (ships.insertionSort fun a b => compareShips ⟨"name", direction⟩ a b ≤ 0) := by
  unfold sortStage
  rw [if_neg (by simp), if_neg (by simp)]

theorem compareShips_name (direction : String) (a b : ClientRecord) :
    compareShips ⟨"name", direction⟩ a b ≤ 0 ↔
      (if direction = "asc" then codeUnits a.name ≤ codeUnits b.name
        else codeUnits b.name ≤ codeUnits a.name) := by
  have h : ∀ x y : ClientRecord,
      valueLt "name" x y = decide (codeUnits x.name < codeUnits y.name) := by
    intro x y
    simp [valueLt]
  unfold compareShips
  rw [h a b, h b a, comparator_le_iff]

theorem compareListShips_name (toLowerCase : String → String) (direction : String)
    (a b : ClientRecord) :
    compareListShips toLowerCase ⟨"name", direction⟩ a b ≤ 0 ↔
      (if direction = "asc" then codeUnits (toLowerCase a.name) ≤ codeUnits (toLowerCase b.name)
        else codeUnits (toLowerCase b.name) ≤ codeUnits (toLowerCase a.name)) := by
  have h : ∀ x y : ClientRecord, listValueLt toLowerCase "name" x y =
      decide (codeUnits (toLowerCase x.name) < codeUnits (toLowerCase y.name)) := by
    intro x y
    simp [listValueLt]
  unfold compareListShips
  rw [if_neg (by simp), h a b, h b a, comparator_le_iff]

/-- C13: on the store with ship A without report, ship B with reports received at 1 and
at 5 and ship C with a report received at 3, the request `CurrentViolations` sends is
answered with the records of B (from its report received at 5) and C and `total` 2. On
the snapshot the client parses from that answer, `timeDetected` is a string: the sort of
`CurrentViolations` by `timeDetected` descending throws a `TypeError`, and the whole
effect with the initial filters keeps no record whatever the clock; `sortedShips` of
`ShipsListPage`, which reads the instant with `new Date`, yields B then C. -/
theorem end_to_end_timeDetected_sort :
    activeShips exampleEngine exampleStore clientQuery 0 = .ok exampleResponse ∧
      exampleResponse.data =
        [transformShipData shipB reportB5 0, transformShipData shipC reportC3 0] ∧
      exampleResponse.pagination.total = 2 ∧
      sortStage ⟨"timeDetected", "desc"⟩ (snapshotOf exampleResponse) = .error getTimeError ∧
      (∀ (toLowerCase : String → String) (now : Int),
        filteredShips toLowerCase (snapshotOf exampleResponse) "" initialFilters
          initialSortConfig now = .ok []) ∧
      (∀ toLowerCase : String → String,
        sortedShips toLowerCase ⟨"timeDetected", "desc"⟩ (snapshotOf exampleResponse) =
          [overTheWire (transformShipData shipB reportB5 0),
            overTheWire (transformShipData shipC reportC3 0)]) ∧
      sortStage ⟨"timeDetected", "desc"⟩ (exampleResponse.data.map withDate) =
        .ok [withDate (transformShipData shipB reportB5 0),
          withDate (transformShipData shipC reportC3 0)] :=
  ⟨rfl, rfl, rfl, rfl, fun _ _ => rfl, fun _ => rfl, rfl⟩

/-- C18: when the filter and sort effect of `CurrentViolations` returns a list, running
it on that list with the same search term, filters, sort configuration and clock returns
the list unchanged. -/
theorem filteredShips_idempotent (toLowerCase : String → String) (ships : List ClientRecord)
    (searchTerm : String) (filters : Filters) (sortConfig : SortConfig) (now : Int)
    (out : List ClientRecord)
    (h : filteredShips toLowerCase ships searchTerm filters sortConfig now = .ok out) :
    filteredShips toLowerCase out searchTerm filters sortConfig now = .ok out := by
  obtain ⟨q, hq⟩ := filterStages_eq_filter toLowerCase searchTerm filters now
  unfold filteredShips at h ⊢
  rw [hq] at h ⊢
  unfold sortStage at h
  by_cases hk : sortConfig.key = ""
  · rw [if_pos hk] at h
    injection h with h
    subst h
    rw [List.filter_filter]
    simp only [Bool.and_self]
    unfold sortStage
    rw [if_pos hk]
  · rw [if_neg hk] at h
    by_cases hg : sortConfig.key = "timeDetected" ∧ 2 ≤ (ships.filter q).length ∧
        (ships.filter q).any getTimeThrows = true
    · rw [if_pos hg] at h
      cases h
    · rw [if_neg hg] at h
      injection h with h
      have hperm : List.Perm out (ships.filter q) := by
        rw [← h]
        exact List.perm_insertionSort _ _
      have hfilter : out.filter q = out := by
        rw [List.filter_eq_self]
        intro a ha
        exact (List.mem_filter.mp (hperm.subset ha)).2
      rw [hfilter]
      unfold sortStage
      rw [if_neg hk]
      have hg2 : ¬ (sortConfig.key = "timeDetected" ∧ 2 ≤ out.length ∧
          out.any getTimeThrows = true) := by
        intro hcon
        apply hg
        refine ⟨hcon.1, ?_, ?_⟩
        · rw [← hperm.length_eq]; exact hcon.2.1
        · obtain ⟨a, ha, hthrow⟩ := List.any_eq_true.mp hcon.2.2
          exact List.any_eq_true.mpr ⟨a, hperm.subset ha, hthrow⟩
      rw [if_neg hg2]
      obtain ⟨κ, inst, g, hgle⟩ := compareShips_le sortConfig
      rw [← h]
      exact congrArg Except.ok (insertionSort_idem g _ hgle _)

/-- C18 on the records of B and C held with their dates, at clock value 10. -/
theorem filteredShips_idempotent_witness :
    filteredShips asciiLower (exampleResponse.data.map withDate) "" initialFilters
        initialSortConfig 10 = .ok (exampleResponse.data.map withDate) ∧
      filteredShips asciiLower (exampleResponse.data.map withDate) "" initialFilters
        initialSortConfig 10 = .ok (exampleResponse.data.map withDate) :=
  ⟨rfl, filteredShips_idempotent asciiLower (exampleResponse.data.map withDate) ""
    initialFilters initialSortConfig 10 (exampleResponse.data.map withDate) rfl⟩

/-- C19, as stated, fails in `ShipsListPage`: the records named "a" and "A" tie under its
comparator, so both directions leave them in snapshot order, while reversing the groups
of equal name of the ascending list swaps them. -/
theorem sortedShips_name_counterexample :
    sortedShips asciiLower ⟨"name", "desc"⟩ [recordNamed "a", recordNamed "A"] =
        [recordNamed "a", recordNamed "A"] ∧
      reverseGroups (fun r => r.name)
          (sortedShips asciiLower ⟨"name", "asc"⟩ [recordNamed "a", recordNamed "A"]) =
        [recordNamed "A", recordNamed "a"] :=
  ⟨rfl, rfl⟩

/-- C19, amended: the list sorted by name descending is the list sorted by name ascending
with the order of its groups of tying records reversed and the order inside each group
unchanged, and in both directions the records that tie keep their snapshot order.
Records tie when their names are equal in `CurrentViolations`, and when their lower-cased
names are equal in `ShipsListPage`. -/
theorem sort_by_name_reverses_groups (toLowerCase : String → String)
    (ships : List ClientRecord) :
    (∃ asc desc : List ClientRecord,
        sortStage ⟨"name", "asc"⟩ ships = .ok asc ∧ sortStage ⟨"name", "desc"⟩ ships = .ok desc ∧
        desc = reverseGroups (fun r => r.name) asc ∧
        ∀ n : String,
          asc.filter (fun r => r.name = n) = ships.filter (fun r => r.name = n) ∧
          desc.filter (fun r => r.name = n) = ships.filter (fun r => r.name = n)) ∧
      sortedShips toLowerCase ⟨"name", "desc"⟩ ships =
        reverseGroups (fun r => toLowerCase r.name)
          (sortedShips toLowerCase ⟨"name", "asc"⟩ ships) ∧
      ∀ n : String,
        (sortedShips toLowerCase ⟨"name", "asc"⟩ ships).filter
            (fun r => toLowerCase r.name = n) =
          ships.filter (fun r => toLowerCase r.name = n) ∧
        (sortedShips toLowerCase ⟨"name", "desc"⟩ ships).filter
            (fun r => toLowerCase r.name = n) =
          ships.filter (fun r => toLowerCase r.name = n) := by
  have hasc : ∀ a b : ClientRecord, compareShips ⟨"name", "asc"⟩ a b ≤ 0 ↔
      codeUnits a.name ≤ codeUnits b.name :=
    fun a b => (compareShips_name "asc" a b).trans (by simp)
  have hdesc : ∀ a b : ClientRecord, compareShips ⟨"name", "desc"⟩ a b ≤ 0 ↔
      codeUnits b.name ≤ codeUnits a.name :=
    fun a b => (compareShips_name "desc" a b).trans (by simp)
  have hlasc : ∀ a b : ClientRecord, compareListShips toLowerCase ⟨"name", "asc"⟩ a b ≤ 0 ↔
      codeUnits (toLowerCase a.name) ≤ codeUnits (toLowerCase b.name) :=
    fun a b => (compareListShips_name toLowerCase "asc" a b).trans (by simp)
  have hldesc : ∀ a b : ClientRecord, compareListShips toLowerCase ⟨"name", "desc"⟩ a b ≤ 0 ↔
      codeUnits (toLowerCase b.name) ≤ codeUnits (toLowerCase a.name) :=
    fun a b => (compareListShips_name toLowerCase "desc" a b).trans (by simp)
  refine ⟨⟨_, _, sortStage_name "asc" ships, sortStage_name "desc" ships, ?_, ?_⟩, ?_, ?_⟩
  · rw [insertionSort_congr _ _ hdesc ships, insertionSort_congr _ _ hasc ships,
      insertionSort_desc_eq_reverseGroups inferInstance (fun r => codeUnits r.name) ships]
    exact reverseGroups_congr (fun r : ClientRecord => codeUnits r.name) (fun r => r.name)
      (fun a b => ⟨fun h => codeUnits_injective _ _ h, fun h => congrArg codeUnits h⟩) _
  · intro n
    constructor
    · exact filter_insertionSort (fun r : ClientRecord => r.name) _
        (fun a b hab => (hasc a b).mpr (le_of_eq (congrArg codeUnits hab))) n ships
    · exact filter_insertionSort (fun r : ClientRecord => r.name) _
        (fun a b hab => (hdesc a b).mpr (le_of_eq (congrArg codeUnits hab.symm))) n ships
  · unfold sortedShips
    rw [insertionSort_congr _ _ hldesc ships, insertionSort_congr _ _ hlasc ships,
      insertionSort_desc_eq_reverseGroups inferInstance
        (fun r => codeUnits (toLowerCase r.name)) ships]
    exact reverseGroups_congr (fun r : ClientRecord => codeUnits (toLowerCase r.name))
      (fun r => toLowerCase r.name)
      (fun a b => ⟨fun h => codeUnits_injective _ _ h, fun h => congrArg codeUnits h⟩) _
  · intro n
    unfold sortedShips
    constructor
    · exact filter_insertionSort (fun r : ClientRecord => toLowerCase r.name) _
        (fun a b hab => (hlasc a b).mpr (le_of_eq (congrArg codeUnits hab))) n ships
    · exact filter_insertionSort (fun r : ClientRecord => toLowerCase r.name) _
        (fun a b hab => (hldesc a b).mpr (le_of_eq (congrArg codeUnits hab.symm))) n ships

/-- C20: a click on key `k` yields key `k`, with direction `desc` when the previous key is
`k` and the previous direction is `asc`, with direction `asc` when the previous key is `k`
and the previous direction is `desc`, and with direction `asc` when the previous key is
not `k`. -/
theorem handleSort_toggle (prevSort : SortConfig) (k : String) :
    (handleSort prevSort k).key = k ∧
      (prevSort.key = k → prevSort.direction = "asc" →
        (handleSort prevSort k).direction = "desc") ∧
      (prevSort.key = k → prevSort.direction = "desc" →
        (handleSort prevSort k).direction = "asc") ∧
      (prevSort.key ≠ k → (handleSort prevSort k).direction = "asc") := by
  refine ⟨rfl, ?_, ?_, ?_⟩
  · intro hk hd
    simp [handleSort, hk, hd]
  · intro hk hd
    simp [handleSort, hk, hd]
  · intro hk
    simp [handleSort, hk]

/-! ## Claims on the coordinate filter of the query -/

theorem orNum_ne_zero (a : Option ℚ) (h : truthyNum a = true) : orNum a 0 ≠ 0 := by
  cases a with
  | none => simp [truthyNum] at h
  | some x =>
    have hx : x ≠ 0 := by simpa [truthyNum] using h
    simp [orNum, hx]

/-- C28: in a `200` response every record of `data` has a non-zero latitude and a non-zero
longitude; no record carries the identifier of a ship whose latest position lacks one of
them; `data` holds as many records as the page the aggregation returned has ships with
both, which is at most the length of the page and at most `limit`; and `total` counts the
ships with a report that pass the search, whatever their coordinates. -/
theorem data_has_coordinates (re : RegexEngine) (store : Store) (query : Query) (now : Int)
    (resp : Response) (h : activeShips re store query now = .ok resp) :
    (∀ r ∈ resp.data, r.location.lat ≠ 0 ∧ r.location.lng ≠ 0) ∧
      (∀ s ∈ store.ships, ∀ p,
        (sortArray (store.positions.filter (fun q => q.UserID = s.UserID))).head? = some p →
        (truthyNum p.Latitude && truthyNum p.Longitude) = false →
        ∀ position, ∀ r ∈ resp.data, r.id ≠ (transformShipData s position now).id) ∧
      ∃ (ships : List JoinedShip) (keep : Ship → Bool),
        pipeline re store (query.search.getD "") (parseParam query.offset 0)
          (parseParam query.limit 50) = .ok ships ∧
        (∀ docs, searchStage re (query.search.getD "") docs =
          .ok (docs.filter (fun d => keep d.ship))) ∧
        resp.data.length = (ships.filter hasCoordinates).length ∧
        resp.data.length ≤ ships.length ∧
        (ships.length : Int) ≤ resp.pagination.limit ∧
        resp.pagination.total = ((matchHasPositions
          (lookup store.positions store.ships)).filter (fun d => keep d.ship)).length := by
  refine ⟨?_, ?_, ?_⟩
  · intro r hr
    obtain ⟨s, -, p, -, -, hlat, hlng, hrec⟩ := mem_data re store query now resp h r hr
    subst hrec
    exact ⟨orNum_ne_zero _ hlat, orNum_ne_zero _ hlng⟩
  · intro s _ p hp hbare position r hr hid
    obtain ⟨t, -, p2, -, hhead, hlat, hlng, hrec⟩ := mem_data re store query now resp h r hr
    rw [hrec] at hid
    have hu := transformShipData_id_eq t s p2 position now now hid
    rw [hu, hp] at hhead
    injection hhead with hhead
    subst hhead
    rw [hlat, hlng] at hbare
    cases hbare
  · obtain ⟨keep, off, lim, -, hlim1, hoff, hlim, hkeep, hpipe, hdata, htotal, -, hlimit, -⟩ :=
      activeShips_ok re store query now resp h
    refine ⟨_, keep, by rw [hoff, hlim]; exact hpipe, hkeep, ?_, ?_, ?_, htotal⟩
    · rw [hdata, length_transformedShips]
    · rw [hdata, length_transformedShips]
      exact List.length_filter_le _ _
    · rw [hlimit, List.length_take]
      omega

/-- C28 on the store whose only report has no coordinates: the page holds one ship,
`data` holds no record and `total` is 1. -/
theorem data_has_coordinates_witness :
    activeShips exampleEngine bareStore {} 0 = .ok bareResponse ∧
      bareResponse.data.length = 0 ∧ bareResponse.pagination.total = 1 ∧
      ∀ r ∈ bareResponse.data, r.location.lat ≠ 0 ∧ r.location.lng ≠ 0 :=
  ⟨rfl, rfl, rfl, (data_has_coordinates exampleEngine bareStore {} 0 bareResponse rfl).1⟩

/-- C29: on the store whose only ship has a report without coordinates, the default
request (offset 0, limit 50) covers the last page, `total` being 1, and is answered with
`hasMore` true; in every `200` response `hasMore` compares the offset plus the number of
records of `data`, not of ships of the page, with `total`. -/
theorem hasMore_on_last_page :
    activeShips exampleEngine bareStore {} 0 = .ok bareResponse ∧
      (bareResponse.pagination.total : Int) ≤
        bareResponse.pagination.offset + bareResponse.pagination.limit ∧
      bareResponse.pagination.hasMore = true ∧
      ∀ (re : RegexEngine) (store : Store) (query : Query) (now : Int) (resp : Response),
        activeShips re store query now = .ok resp →
        resp.pagination.hasMore =
          decide (resp.pagination.offset + (resp.data.length : Int) <
            (resp.pagination.total : Int)) := by
  refine ⟨rfl, by decide, rfl, ?_⟩
  intro re store query now resp h
  obtain ⟨keep, off, lim, -, -, -, -, -, -, -, -, hoffset, -, hmore⟩ :=
    activeShips_ok re store query now resp h
  rw [hmore, hoffset]

/-! ## Claims on the stages of the filter effect -/

theorem applyTimeRange_eq (now : Int) (w : String) (snapshot : List ClientRecord) :
    (∀ window, timeRanges w = some window → applyTimeRange now w snapshot =
        snapshot.filter fun r => withinWindow now window r.timeDetected) ∧
      (w ∈ inheritedMembers → applyTimeRange now w snapshot = []) ∧
      (w ∉ ["1h", "24h", "7d", "30d"] → w ∉ inheritedMembers →
        applyTimeRange now w snapshot = snapshot) := by
  refine ⟨?_, ?_, ?_⟩
  · intro window h
    rw [applyTimeRange, h]
  · intro h
    have hnone : timeRanges w = none := by
      simp only [inheritedMembers, List.mem_cons, List.mem_singleton, List.mem_nil_iff,
        or_false] at h
      rcases h with h | h | h | h | h | h | h | h | h | h | h | h <;> subst h <;> rfl
    have hc : inheritedMembers.contains w = true := by simpa using h
    rw [applyTimeRange, hnone]
    simp only [hc, if_true]
    exact List.filter_eq_nil_iff.mpr (fun _ _ => by simp)
  · intro h1 h2
    have hnone : timeRanges w = none := by
      simp only [List.mem_cons, List.mem_singleton, List.mem_nil_iff, or_false, not_or] at h1
      obtain ⟨a, b, c, d⟩ := h1
      simp [timeRanges, a, b, c, d]
    have hc : inheritedMembers.contains w = false := by simpa using h2
    rw [applyTimeRange, hnone]
    simp only [hc]
    rfl

theorem iso_snapshotOf (resp : Response) :
    ∀ r ∈ snapshotOf resp, ∃ ms, r.timeDetected = .iso ms := by
  intro r hr
  simp only [snapshotOf, List.mem_map] at hr
  obtain ⟨v, -, rfl⟩ := hr
  exact ⟨_, rfl⟩

theorem applyTimeRange_iso (now : Int) (w : String) (snapshot : List ClientRecord)
    (hiso : ∀ r ∈ snapshot, ∃ ms, r.timeDetected = .iso ms) (hw : w ∈ timeRangeOptions) :
    applyTimeRange now w snapshot = [] := by
  have hsome : ∃ window, timeRanges w = some window := by
    simp only [timeRangeOptions, List.mem_cons, List.mem_singleton, List.mem_nil_iff,
      or_false] at hw
    rcases hw with rfl | rfl | rfl | rfl <;> exact ⟨_, rfl⟩
  obtain ⟨window, hwin⟩ := hsome
  rw [(applyTimeRange_eq now w snapshot).1 window hwin, List.filter_eq_nil_iff]
  intro r hr
  obtain ⟨ms, hms⟩ := hiso r hr
  simp [hms, withinWindow]

/-- C23: the windows of 1h, 24h, 7d and 30d are 3 600 000, 86 400 000, 604 800 000 and
2 592 000 000 milliseconds, and a value that is none of the four and no name of an
inherited member leaves the input unchanged; but on the records of a response as they
are delivered, each of the four values keeps no record, at any clock: of the two records
of the sample response, detected at 5 and at 3, so both with `now` minus the instant
within 30 days at the clock 10, the value 30d keeps none. -/
theorem applyTimeRange_delivered :
    (timeRanges "1h" = some 3600000 ∧ timeRanges "24h" = some 86400000 ∧
        timeRanges "7d" = some 604800000 ∧ timeRanges "30d" = some 2592000000) ∧
      (∀ (now : Int) (w : String) (snapshot : List ClientRecord),
        w ∉ timeRangeOptions → w ∉ inheritedMembers →
        applyTimeRange now w snapshot = snapshot) ∧
      (∀ (now : Int) (w : String) (resp : Response),
        w ∈ timeRangeOptions → applyTimeRange now w (snapshotOf resp) = []) ∧
      (snapshotOf exampleResponse).map (fun r => r.timeDetected) = [.iso 5, .iso 3] ∧
      (snapshotOf exampleResponse).filter
          (fun r => decide (10 - r.timeDetected.ms ≤ 2592000000)) =
        snapshotOf exampleResponse ∧
      applyTimeRange 10 "30d" (snapshotOf exampleResponse) = [] := by
  refine ⟨⟨rfl, rfl, rfl, rfl⟩, ?_, ?_, rfl, rfl, rfl⟩
  · intro now w snapshot h1 h2
    exact (applyTimeRange_eq now w snapshot).2.2 h1 h2
  · intro now w resp hw
    exact applyTimeRange_iso now w (snapshotOf resp) (iso_snapshotOf resp) hw

/-- C24, as stated, fails: ticking the checkbox `wrong-route` on the initial filters gives
the set with that one type, and the violation-type stage then keeps nothing of the
snapshot that holds the record the server built of ship B. -/
theorem applyViolationType_counterexample :
    (handleViolationTypeChange initialFilters "wrong-route" true).violationType =
        ["wrong-route"] ∧
      applyViolationType ["wrong-route"] [overTheWire (transformShipData shipB reportB5 0)] =
        [] :=
  ⟨rfl, rfl⟩

/-- C24, amended: on a snapshot whose records carry the violation `transformShipData`
gives every record, the violation-type stage keeps every record when the set of types is
empty, and no record when the set is a non-empty set of types of the sidebar. -/
theorem applyViolationType_monitoring (snapshot : List ClientRecord) (types : List String)
    (hrec : ∀ r ∈ snapshot, ∃ (s : Ship) (p : PositionReport) (now : Int),
      r.violation = (transformShipData s p now).violation)
    (htypes : ∀ t ∈ types, t ∈ sidebarTypes) :
    applyViolationType types snapshot = if types = [] then snapshot else [] := by
  by_cases h : types = []
  · subst h
    rfl
  · have hlen : types.length > 0 := List.length_pos.mpr h
    rw [applyViolationType, if_pos hlen, if_neg h, List.filter_eq_nil_iff]
    intro r hr hmem
    obtain ⟨s, p, now, hv⟩ := hrec r hr
    have hin : r.violation.type ∈ types := by simpa using hmem
    have hside := htypes _ hin
    rw [hv] at hside
    revert hside
    simp [transformShipData, sidebarTypes]

/-- C24, amended, on the snapshot of the sample response: with two boxes ticked nothing is
kept, with none everything. -/
theorem applyViolationType_monitoring_witness :
    applyViolationType ["wrong-route", "area-restriction"] (snapshotOf exampleResponse) = [] ∧
      applyViolationType [] (snapshotOf exampleResponse) = snapshotOf exampleResponse :=
  ⟨applyViolationType_monitoring (snapshotOf exampleResponse) ["wrong-route", "area-restriction"]
      (by
        intro r hr
        simp only [snapshotOf, exampleResponse, List.map_cons, List.map_nil, List.mem_cons,
          List.mem_singleton, List.mem_nil_iff, or_false] at hr
        rcases hr with h | h
        · exact ⟨shipB, reportB5, 0, by rw [h]; rfl⟩
        · exact ⟨shipC, reportC3, 0, by rw [h]; rfl⟩)
      (by decide),
    rfl⟩

/-- C25: with an empty term the search stage returns its input unchanged; with any other
term it keeps, in their order, exactly the records for which the lower-cased term is a
substring of the lower-cased name or of the lower-cased location name. -/
theorem applySearch_substring (toLowerCase : String → String) (searchTerm : String)
    (snapshot : List ClientRecord) :
    applySearch toLowerCase "" snapshot = snapshot ∧
      (searchTerm ≠ "" →
        ∃ keep : ClientRecord → Bool,
          applySearch toLowerCase searchTerm snapshot = snapshot.filter keep ∧
          ∀ r, keep r = true ↔
            List.IsInfix (toLowerCase searchTerm).data (toLowerCase r.name).data ∨
              List.IsInfix (toLowerCase searchTerm).data (toLowerCase r.location.name).data) := by
  refine ⟨rfl, fun h => ⟨_, by rw [applySearch, if_pos h], fun r => ?_⟩⟩
  simp [includes]

/-- C27: with the initial filters and an empty search term the filter stages are the test
of the 30-day window, so the pipeline drops a record that holds a `Date` more than
2 592 000 000 ms before the clock (ship B, detected at 5, at clock 2 592 000 006, while
it is kept one millisecond earlier), and it drops every record of a snapshot as the
response delivers it, at any clock: of the two records of the sample response none is
left at the clock 10. -/
theorem initial_filters_drop_records :
    (∀ (toLowerCase : String → String) (ships : List ClientRecord) (now : Int),
        filterStages toLowerCase ships "" initialFilters now =
          ships.filter fun r => withinWindow now 2592000000 r.timeDetected) ∧
      filteredShips asciiLower [withDate (transformShipData shipB reportB5 0)] ""
          initialFilters initialSortConfig 2592000006 = .ok [] ∧
      filteredShips asciiLower [withDate (transformShipData shipB reportB5 0)] ""
          initialFilters initialSortConfig 2592000005 =
        .ok [withDate (transformShipData shipB reportB5 0)] ∧
      (snapshotOf exampleResponse).length = 2 ∧
      filteredShips asciiLower (snapshotOf exampleResponse) "" initialFilters
          initialSortConfig 10 = .ok [] ∧
      ∀ (toLowerCase : String → String) (resp : Response) (now : Int),
        filteredShips toLowerCase (snapshotOf resp) "" initialFilters initialSortConfig now =
          .ok [] := by
  have hstages : ∀ (toLowerCase : String → String) (ships : List ClientRecord) (now : Int),
      filterStages toLowerCase ships "" initialFilters now =
        ships.filter fun r => withinWindow now 2592000000 r.timeDetected := by
    intro toLowerCase ships now
    rfl
  refine ⟨hstages, ?_, ?_, rfl, rfl, ?_⟩
  · rw [filteredShips, hstages]
    rfl
  · rw [filteredShips, hstages]
    rfl
  · intro toLowerCase resp now
    have hnil : (snapshotOf resp).filter
        (fun r => withinWindow now 2592000000 r.timeDetected) = [] := by
      rw [List.filter_eq_nil_iff]
      intro r hr
      simp only [snapshotOf, List.mem_map] at hr
      obtain ⟨v, -, rfl⟩ := hr
      simp [overTheWire, withinWindow]
    rw [filteredShips, hstages, hnil]
    rfl

/-! ## Claims on pagination -/

theorem slice_of_nonneg {α : Type} (l : List α) (a b : Int) (ha : 0 ≤ a) (hab : a ≤ b) :
    slice l a b = (l.drop a.toNat).take (b - a).toNat := by
  have hb : 0 ≤ b := le_trans ha hab
  simp only [slice, not_lt.mpr ha, not_lt.mpr hb, if_false]
  by_cases hlen : (l.length : Int) ≤ a
  · have h1 : l.length ≤ a.toNat := by omega
    have h2 : l.length ≤ (min a (l.length : Int)).toNat := by
      rw [min_eq_right hlen]; simp
    rw [List.drop_of_length_le h1, List.drop_of_length_le h2]
    simp
  · have hk : min a (l.length : Int) = a := min_eq_left (by omega)
    rw [hk]
    by_cases hbl : b ≤ (l.length : Int)
    · rw [min_eq_left hbl]
    · rw [min_eq_right (by omega)]
      rw [List.take_of_length_le, List.take_of_length_le]
      · rw [List.length_drop]; omega
      · rw [List.length_drop]; omega

theorem paginatedShips_succ {α : Type} (l : List α) (i n : Nat) :
    paginatedShips l ((i : Int) + 1) n = (l.drop (i * n)).take n := by
  have ha : (0 : Int) ≤ ((i : Int) + 1 - 1) * (n : Int) := by
    have : (0 : Int) ≤ (i : Int) * (n : Int) := by positivity
    simpa using this
  have hab : ((i : Int) + 1 - 1) * (n : Int) ≤ ((i : Int) + 1) * (n : Int) := by
    have : (0 : Int) ≤ (n : Int) := by positivity
    nlinarith
  rw [paginatedShips, slice_of_nonneg l _ _ ha hab]
  have h1 : (((i : Int) + 1 - 1) * (n : Int)).toNat = i * n := by
    have : ((i : Int) + 1 - 1) * (n : Int) = ((i * n : Nat) : Int) := by push_cast; ring
    rw [this, Int.toNat_natCast]
  have h2 : (((i : Int) + 1) * (n : Int) - ((i : Int) + 1 - 1) * (n : Int)).toNat = n := by
    have : ((i : Int) + 1) * (n : Int) - ((i : Int) + 1 - 1) * (n : Int) = (n : Int) := by ring
    rw [this, Int.toNat_natCast]
  rw [h1, h2]

theorem flatMap_pages {α : Type} (l : List α) (n k : Nat) :
    (List.range k).flatMap (fun i => (l.drop (i * n)).take n) = l.take (k * n) := by
  induction k with
  | zero => simp
  | succ k ih =>
    rw [List.range_succ, List.flatMap_append, ih]
    simp only [List.flatMap_cons, List.flatMap_nil, List.append_nil]
    rw [Nat.succ_mul, List.take_add]

theorem totalPages_bounds (len n : Nat) (hn : 0 < n) :
    0 ≤ totalPages len n ∧ (len : Int) ≤ totalPages len n * n ∧
      ∀ p : Int, p ≤ totalPages len n → (p - 1) * n < len := by
  have hnq : (0 : ℚ) < (n : ℚ) := by exact_mod_cast hn
  refine ⟨?_, ?_, ?_⟩
  · exact Int.ceil_nonneg (by positivity)
  · have h := Int.le_ceil ((len : ℚ) / (n : ℚ))
    rw [div_le_iff₀ hnq] at h
    unfold totalPages
    exact_mod_cast h
  · intro p hp
    have h1 : p - 1 < totalPages len n := by omega
    have h2 : ((p - 1 : Int) : ℚ) < (len : ℚ) / (n : ℚ) := Int.lt_ceil.mp h1
    rw [lt_div_iff₀ hnq] at h2
    exact_mod_cast h2

/-- C30: for a page size `n` above zero, every page from 1 to `totalPages` is non-empty
and holds at most `n` records, and the pages 1 to `totalPages` in a row are the list. -/
theorem pagination_partitions {α : Type} (ships : List α) (n : Nat) (hn : 0 < n) :
    (∀ p : Int, 1 ≤ p → p ≤ totalPages ships.length n →
        paginatedShips ships p n ≠ [] ∧ (paginatedShips ships p n).length ≤ n) ∧
      (List.range (totalPages ships.length n).toNat).flatMap
          (fun i => paginatedShips ships ((i : Int) + 1) n) = ships := by
  obtain ⟨h0, hle, hlt⟩ := totalPages_bounds ships.length n hn
  constructor
  · intro p hp1 hpT
    obtain ⟨i, rfl⟩ : ∃ i : Nat, p = (i : Int) + 1 := ⟨(p - 1).toNat, by omega⟩
    rw [paginatedShips_succ]
    have hi : i * n < ships.length := by
      have := hlt _ hpT
      have h3 : ((i : Int) + 1 - 1) * (n : Int) = ((i * n : Nat) : Int) := by push_cast; ring
      rw [h3] at this
      exact_mod_cast this
    constructor
    · intro hnil
      have hlen := congrArg List.length hnil
      rw [List.length_take, List.length_drop] at hlen
      simp only [List.length_nil] at hlen
      omega
    · rw [List.length_take]
      omega
  · have hfun : (fun i : Nat => paginatedShips ships ((i : Int) + 1) n) =
        fun i => (ships.drop (i * n)).take n := by
      funext i
      exact paginatedShips_succ ships i n
    rw [hfun, flatMap_pages]
    apply List.take_of_length_le
    have h4 : ((totalPages ships.length n).toNat : Int) = totalPages ships.length n :=
      Int.toNat_of_nonneg h0
    have h5 : (ships.length : Int) ≤ (((totalPages ships.length n).toNat * n : Nat) : Int) := by
      push_cast
      rw [h4]
      exact hle
    exact_mod_cast h5

/-- C30 on a list of five with pages of two, the third of which holds the last record. -/
theorem pagination_partitions_witness :
    0 < 2 ∧ paginatedShips [1, 2, 3, 4, 5] 3 2 = [5] ∧
      ((∀ p : Int, 1 ≤ p → p ≤ totalPages [1, 2, 3, 4, 5].length 2 →
          paginatedShips [1, 2, 3, 4, 5] p 2 ≠ [] ∧
            (paginatedShips [1, 2, 3, 4, 5] p 2).length ≤ 2) ∧
        (List.range (totalPages [1, 2, 3, 4, 5].length 2).toNat).flatMap
            (fun i => paginatedShips [1, 2, 3, 4, 5] ((i : Int) + 1) 2) = [1, 2, 3, 4, 5]) :=
  ⟨by decide, rfl, pagination_partitions [1, 2, 3, 4, 5] 2 (by decide)⟩

/-! ## Claims on the state of the views -/

theorem filterEffect_ok (toLowerCase : String → String) (now : Int)
    (s t : CurrentViolations.State)
    (h : CurrentViolations.filterEffect toLowerCase now s = .ok t) :
    t.currentPage = 1 ∧ t.ships = s.ships ∧ t.searchTerm = s.searchTerm ∧
      t.filters = s.filters ∧ t.sortConfig = s.sortConfig := by
  unfold CurrentViolations.filterEffect at h
  split at h
  · injection h with h
    subst h
    exact ⟨rfl, rfl, rfl, rfl, rfl⟩
  · cases h

theorem mem_of_mem_stages (toLowerCase : String → String) (searchTerm : String)
    (filters : Filters) (ships : List ClientRecord) (r : ClientRecord)
    (h : r ∈ applyLocation toLowerCase filters.location
      (applyViolationType filters.violationType (applySearch toLowerCase searchTerm ships))) :
    r ∈ ships := by
  have h1 : r ∈ applyViolationType filters.violationType
      (applySearch toLowerCase searchTerm ships) := by
    unfold applyLocation at h
    split at h
    · exact (List.mem_filter.mp h).1
    · exact h
  have h2 : r ∈ applySearch toLowerCase searchTerm ships := by
    unfold applyViolationType at h1
    split at h1
    · exact (List.mem_filter.mp h1).1
    · exact h1
  unfold applySearch at h2
  split at h2
  · exact (List.mem_filter.mp h2).1
  · exact h2

theorem filteredShips_delivered (toLowerCase : String → String) (ships : List ClientRecord)
    (searchTerm : String) (filters : Filters) (sortConfig : SortConfig) (now : Int)
    (hiso : ∀ r ∈ ships, ∃ ms, r.timeDetected = .iso ms)
    (hw : filters.timeRange ∈ timeRangeOptions) :
    filteredShips toLowerCase ships searchTerm filters sortConfig now = .ok [] := by
  have htime : applyTimeRange now filters.timeRange
      (applyLocation toLowerCase filters.location
        (applyViolationType filters.violationType
          (applySearch toLowerCase searchTerm ships))) = [] :=
    applyTimeRange_iso now _ _
      (fun r hr => hiso r (mem_of_mem_stages toLowerCase searchTerm filters ships r hr)) hw
  have hstages : filterStages toLowerCase ships searchTerm filters now = [] := by
    unfold filterStages
    rw [htime]
    unfold applySeverity
    split <;> rfl
  rw [filteredShips, hstages]
  unfold sortStage
  by_cases hk : sortConfig.key = ""
  · rw [if_pos hk]
  · rw [if_neg hk, if_neg (by simp)]
    rfl

theorem filterEffect_delivered (toLowerCase : String → String) (now : Int)
    (s : CurrentViolations.State)
    (hiso : ∀ r ∈ s.ships, ∃ ms, r.timeDetected = .iso ms)
    (hw : s.filters.timeRange ∈ timeRangeOptions) :
    CurrentViolations.filterEffect toLowerCase now s =
      .ok { s with filteredShips := [], currentPage := 1 } := by
  unfold CurrentViolations.filterEffect
  rw [filteredShips_delivered toLowerCase s.ships s.searchTerm s.filters s.sortConfig now hiso hw]

theorem timeRange_of_sends (filters newFilters : Filters)
    (hw : filters.timeRange ∈ timeRangeOptions) (h : FilterSidebar.Sends filters newFilters) :
    newFilters.timeRange ∈ timeRangeOptions := by
  cases h with
  | violationType type checked => exact hw
  | location value => exact hw
  | timeRange value hv => exact hv
  | severity value => exact hw
  | clearAll => decide
  | quick preset hp =>
    simp only [quickFilters, List.mem_cons, List.mem_singleton, List.mem_nil_iff,
      or_false] at hp
    rcases hp with rfl | rfl | rfl <;> decide

theorem totalPages_zero (n : Nat) : totalPages 0 n = 0 := by
  simp [totalPages]

/-- Every state `CurrentViolations` gets into has an empty filtered list, the page 1, a
time range of the select, and a snapshot whose records hold ISO strings. -/
theorem reachable_invariant (toLowerCase : String → String) (s : CurrentViolations.State)
    (h : CurrentViolations.Reachable toLowerCase s) :
    s.filteredShips = [] ∧ s.currentPage = 1 ∧ s.filters.timeRange ∈ timeRangeOptions ∧
      ∀ r ∈ s.ships, ∃ ms, r.timeDetected = .iso ms := by
  have heffect : ∀ (now : Int) (a t : CurrentViolations.State),
      a.filters.timeRange ∈ timeRangeOptions →
      (∀ r ∈ a.ships, ∃ ms, r.timeDetected = .iso ms) →
      CurrentViolations.filterEffect toLowerCase now a = .ok t →
      t.filteredShips = [] ∧ t.currentPage = 1 ∧ t.filters.timeRange ∈ timeRangeOptions ∧
        ∀ r ∈ t.ships, ∃ ms, r.timeDetected = .iso ms := by
    intro now a t hw hiso ht
    rw [filterEffect_delivered toLowerCase now a hiso hw] at ht
    injection ht with ht
    subst ht
    exact ⟨rfl, rfl, hw, hiso⟩
  induction h with
  | mount lastUpdate =>
    exact ⟨rfl, rfl, List.mem_cons_of_mem _ (List.mem_cons_of_mem _
      (List.mem_cons_of_mem _ (List.mem_singleton.mpr rfl))),
      fun r hr => absurd hr (List.not_mem_nil r)⟩
  | beginLoad _ ih => exact ih
  | beginRefresh _ ih => exact ih
  | setViewMode mode _ ih => exact ih
  | loadData updated now fetched _ ht ih =>
    obtain ⟨h1, h2, h3, h4⟩ := ih
    cases fetched with
    | ok resp =>
      simp only [CurrentViolations.loadData, Except.map] at ht
      refine heffect now _ _ ?_ ?_ ht
      · exact h3
      · exact iso_snapshotOf resp
    | error err =>
      simp only [CurrentViolations.loadData, Except.map] at ht
      injection ht with ht
      subst ht
      exact ⟨h1, h2, h3, h4⟩
  | refreshData updated now fetched _ ht ih =>
    obtain ⟨h1, h2, h3, h4⟩ := ih
    cases fetched with
    | ok resp =>
      simp only [CurrentViolations.refreshData, Except.map] at ht
      refine heffect now _ _ ?_ ?_ ht
      · exact h3
      · exact iso_snapshotOf resp
    | error err =>
      simp only [CurrentViolations.refreshData, Except.map] at ht
      injection ht with ht
      subst ht
      exact ⟨h1, h2, h3, h4⟩
  | intervalUpdate updated now fetched _ ht ih =>
    obtain ⟨h1, h2, h3, h4⟩ := ih
    cases fetched with
    | ok resp =>
      simp only [CurrentViolations.intervalUpdate, Except.map] at ht
      refine heffect now _ _ ?_ ?_ ht
      · split <;> exact h3
      · split <;> exact iso_snapshotOf resp
    | error err =>
      simp only [CurrentViolations.intervalUpdate, Except.map] at ht
      injection ht with ht
      subst ht
      split <;> exact ⟨h1, h2, h3, h4⟩
  | handleFilterChange now newFilters _ hsend ht ih =>
    obtain ⟨-, -, h3, h4⟩ := ih
    unfold CurrentViolations.handleFilterChange at ht
    refine heffect now _ _ ?_ ?_ ht
    · exact timeRange_of_sends _ _ h3 hsend
    · exact h4
  | onClearFilters now _ ht ih =>
    obtain ⟨-, -, -, h4⟩ := ih
    unfold CurrentViolations.onClearFilters at ht
    refine heffect now _ _ ?_ ?_ ht
    · exact List.mem_cons_of_mem _ (List.mem_cons_self _ _)
    · exact h4
  | handleSort now key _ ht ih =>
    obtain ⟨-, -, h3, h4⟩ := ih
    unfold CurrentViolations.handleSort at ht
    refine heffect now _ _ ?_ ?_ ht
    · exact h3
    · exact h4
  | handleSearch now term _ ht ih =>
    obtain ⟨h1, h2, h3, h4⟩ := ih
    unfold CurrentViolations.handleSearch at ht
    split at ht
    · injection ht with ht
      subst ht
      exact ⟨h1, h2, h3, h4⟩
    · refine heffect now _ _ ?_ ?_ ht
      · exact h3
      · exact h4
  | setCurrentPage page _ hload hpages ih =>
    obtain ⟨h1, -, -, -⟩ := ih
    rw [h1, List.length_nil, totalPages_zero] at hpages
    exact absurd hpages (by decide)

/-- C21: in every state `CurrentViolations` gets into, the filtered list is empty and the
page is 1, and a periodic update and a manual refresh that deliver the `data` of a
response run to their end, store the delivered snapshot, and leave the page as it was,
as they leave the search term, the filters and the sort. -/
theorem refresh_keeps_page (toLowerCase : String → String) (updated now : Int)
    (s : CurrentViolations.State) (resp : Response)
    (h : CurrentViolations.Reachable toLowerCase s) :
    ∃ t u : CurrentViolations.State,
      CurrentViolations.intervalUpdate toLowerCase updated now s (.ok (snapshotOf resp)) =
          .ok t ∧
        CurrentViolations.refreshData toLowerCase updated now s (.ok (snapshotOf resp)) =
          .ok u ∧
        (t.ships = snapshotOf resp ∧ t.currentPage = s.currentPage ∧
          t.searchTerm = s.searchTerm ∧ t.filters = s.filters ∧
          t.sortConfig = s.sortConfig) ∧
        (u.ships = snapshotOf resp ∧ u.currentPage = s.currentPage ∧
          u.searchTerm = s.searchTerm ∧ u.filters = s.filters ∧
          u.sortConfig = s.sortConfig) ∧
        s.filteredShips = [] ∧ s.currentPage = 1 := by
  obtain ⟨h1, h2, h3, -⟩ := reachable_invariant toLowerCase s h
  have hiso := iso_snapshotOf resp
  have hI : ∃ t : CurrentViolations.State,
      CurrentViolations.intervalUpdate toLowerCase updated now s (.ok (snapshotOf resp)) =
          .ok t ∧
        (t.ships = snapshotOf resp ∧ t.currentPage = s.currentPage ∧
          t.searchTerm = s.searchTerm ∧ t.filters = s.filters ∧
          t.sortConfig = s.sortConfig) := by
    simp only [CurrentViolations.intervalUpdate]
    by_cases he : s.error.isSome = true
    · rw [if_pos he]
      exact ⟨_, filterEffect_delivered toLowerCase now _ hiso h3, rfl, h2.symm, rfl, rfl, rfl⟩
    · rw [if_neg he]
      exact ⟨_, filterEffect_delivered toLowerCase now _ hiso h3, rfl, h2.symm, rfl, rfl, rfl⟩
  have hR : ∃ u : CurrentViolations.State,
      CurrentViolations.refreshData toLowerCase updated now s (.ok (snapshotOf resp)) =
          .ok u ∧
        (u.ships = snapshotOf resp ∧ u.currentPage = s.currentPage ∧
          u.searchTerm = s.searchTerm ∧ u.filters = s.filters ∧
          u.sortConfig = s.sortConfig) := by
    simp only [CurrentViolations.refreshData]
    exact ⟨_, filterEffect_delivered toLowerCase now _ hiso h3, rfl, h2.symm, rfl, rfl, rfl⟩
  obtain ⟨t, ht, htf⟩ := hI
  obtain ⟨u, hu, huf⟩ := hR
  exact ⟨t, u, ht, hu, htf, huf, h1, h2⟩

/-- C21 on the state after the load of the sample response, whose snapshot holds two
records: an update and a refresh that deliver the sample response again leave the page
at 1. -/
theorem refresh_keeps_page_witness :
    CurrentViolations.Reachable asciiLower CurrentViolations.loadedState ∧
      CurrentViolations.loadedState.ships.length = 2 ∧
      ∃ t u : CurrentViolations.State,
        CurrentViolations.intervalUpdate asciiLower 50 50 CurrentViolations.loadedState
            (.ok (snapshotOf exampleResponse)) = .ok t ∧
          CurrentViolations.refreshData asciiLower 50 50 CurrentViolations.loadedState
            (.ok (snapshotOf exampleResponse)) = .ok u ∧
          (t.ships = snapshotOf exampleResponse ∧
            t.currentPage = CurrentViolations.loadedState.currentPage ∧
            t.searchTerm = CurrentViolations.loadedState.searchTerm ∧
            t.filters = CurrentViolations.loadedState.filters ∧
            t.sortConfig = CurrentViolations.loadedState.sortConfig) ∧
          (u.ships = snapshotOf exampleResponse ∧
            u.currentPage = CurrentViolations.loadedState.currentPage ∧
            u.searchTerm = CurrentViolations.loadedState.searchTerm ∧
            u.filters = CurrentViolations.loadedState.filters ∧
            u.sortConfig = CurrentViolations.loadedState.sortConfig) ∧
          CurrentViolations.loadedState.filteredShips = [] ∧
          CurrentViolations.loadedState.currentPage = 1 :=
  ⟨.loadData 10 10 (.ok exampleResponse) (.mount 0) rfl, rfl,
    refresh_keeps_page asciiLower 50 50 CurrentViolations.loadedState exampleResponse
      (.loadData 10 10 (.ok exampleResponse) (.mount 0) rfl)⟩

/-- C22: in `CurrentViolations` a change of the sort, of the filters or of the search
term leads, when the effect runs to its end, to a state with the page 1; in
`ShipsListPage` a click on a column header changes the sort and leaves the page as it
was: from the state on page 2 of sixteen records sorted by name ascending, a click on
the name header gives the sort by name descending and the page 2. -/
theorem sort_change_page :
    (∀ (toLowerCase : String → String) (now : Int) (s t : CurrentViolations.State),
        (∀ key, CurrentViolations.handleSort toLowerCase now s key = .ok t →
          t.currentPage = 1) ∧
        (∀ newFilters, CurrentViolations.handleFilterChange toLowerCase now s newFilters = .ok t →
          t.currentPage = 1) ∧
        (∀ term, term ≠ s.searchTerm →
          CurrentViolations.handleSearch toLowerCase now s term = .ok t →
          t.currentPage = 1)) ∧
      (∀ (s : ShipsListPage.State) (key : String),
        (ShipsListPage.handleSort s key).currentPage = s.currentPage ∧
          (ShipsListPage.handleSort s key).sortConfig ≠ s.sortConfig) ∧
      paginatedShips
          (sortedShips asciiLower ShipsListPage.onPageTwo.sortConfig
            ShipsListPage.onPageTwo.ships) 2 ShipsListPage.itemsPerPage =
        [recordNamed "p"] ∧
      ShipsListPage.onPageTwo.currentPage = 2 ∧
      (ShipsListPage.handleSort ShipsListPage.onPageTwo "name").sortConfig =
        { key := "name", direction := "desc" } ∧
      (ShipsListPage.handleSort ShipsListPage.onPageTwo "name").currentPage = 2 ∧
      paginatedShips
          (sortedShips asciiLower
            (ShipsListPage.handleSort ShipsListPage.onPageTwo "name").sortConfig
            (ShipsListPage.handleSort ShipsListPage.onPageTwo "name").ships)
          (ShipsListPage.handleSort ShipsListPage.onPageTwo "name").currentPage
          ShipsListPage.itemsPerPage =
        [recordNamed "a"] := by
  refine ⟨?_, ?_, rfl, rfl, rfl, rfl, rfl⟩
  · intro toLowerCase now s t
    refine ⟨fun key h => ?_, fun newFilters h => ?_, fun term hne h => ?_⟩
    · exact (filterEffect_ok _ _ _ _ h).1
    · exact (filterEffect_ok _ _ _ _ h).1
    · rw [CurrentViolations.handleSearch, if_neg hne] at h
      exact (filterEffect_ok _ _ _ _ h).1
  · intro s key
    refine ⟨rfl, ?_⟩
    intro h
    have hk : s.sortConfig.key = key := by
      have := congrArg SortConfig.key h
      simpa [ShipsListPage.handleSort, ShipTracker.handleSort] using this.symm
    have hd := congrArg SortConfig.direction h
    simp only [ShipsListPage.handleSort, ShipTracker.handleSort, hk, true_and] at hd
    by_cases hasc : s.sortConfig.direction = "asc"
    · rw [if_pos hasc, hasc] at hd
      exact absurd hd (by decide)
    · rw [if_neg hasc] at hd
      exact hasc hd.symm

/-- C26: in `CurrentViolations` and in `ShipsListPage`, a load, a periodic update and a
manual refresh whose fetch threw lead to a state with the snapshot, and every other cell
but `error`, `connectionStatus` and `loading`, as they were before. -/
theorem failed_fetch_keeps_snapshot (toLowerCase : String → String) (updated now : Int)
    (err : Thrown) (s : CurrentViolations.State) (l : ShipsListPage.State) :
    (∀ run ∈ [CurrentViolations.loadData, CurrentViolations.intervalUpdate,
          CurrentViolations.refreshData],
        ∃ t, run toLowerCase updated now s (.error err) = .ok t ∧
          t.ships = s.ships ∧ t.filteredShips = s.filteredShips ∧
          t.lastUpdate = s.lastUpdate ∧ t.filters = s.filters ∧
          t.searchTerm = s.searchTerm ∧ t.viewMode = s.viewMode ∧
          t.sortConfig = s.sortConfig ∧ t.currentPage = s.currentPage) ∧
      ∀ run ∈ [ShipsListPage.loadData, ShipsListPage.intervalUpdate,
          ShipsListPage.refreshData],
        (run updated l (.error err)).ships = l.ships ∧
          (run updated l (.error err)).lastUpdate = l.lastUpdate ∧
          (run updated l (.error err)).viewMode = l.viewMode ∧
          (run updated l (.error err)).sortConfig = l.sortConfig ∧
          (run updated l (.error err)).currentPage = l.currentPage := by
  constructor
  · intro run hrun
    simp only [List.mem_cons, List.mem_singleton, List.mem_nil_iff, or_false] at hrun
    rcases hrun with rfl | rfl | rfl
    · exact ⟨_, rfl, rfl, rfl, rfl, rfl, rfl, rfl, rfl, rfl⟩
    · unfold CurrentViolations.intervalUpdate
      simp only
      split
      · exact ⟨_, rfl, rfl, rfl, rfl, rfl, rfl, rfl, rfl, rfl⟩
      · exact ⟨_, rfl, rfl, rfl, rfl, rfl, rfl, rfl, rfl, rfl⟩
    · exact ⟨_, rfl, rfl, rfl, rfl, rfl, rfl, rfl, rfl, rfl⟩
  · intro run hrun
    simp only [List.mem_cons, List.mem_singleton, List.mem_nil_iff, or_false] at hrun
    rcases hrun with rfl | rfl | rfl
    · exact ⟨rfl, rfl, rfl, rfl, rfl⟩
    · unfold ShipsListPage.intervalUpdate
      simp only
      split
      · exact ⟨rfl, rfl, rfl, rfl, rfl⟩
      · exact ⟨rfl, rfl, rfl, rfl, rfl⟩
    · exact ⟨rfl, rfl, rfl, rfl, rfl⟩

end ShipTracker
